import Mathlib

/-!
Verification of the CEDA CCMI archive query scripts.

This file gives a shallow embedding of the tree-traversal / inventory /
search / download logic of the three Python scripts

  * ceda-query_ccmi1_xml-urlib_tokens.py   (the CCMI-1 variant)
  * ceda-query_ccmi2022_xml-urllib.py      (the CCMI-2022 variant)
  * python_ceda-ftp.py                     (the FTP variant)

and proves or refutes the specification claims about them.

Modelling conventions:
  * Python's heterogeneous nested lists (the `invntry` structure) are the
    inductive type `Py` (strings, ints, lists).
  * Python exceptions are `Except PyExc`; an uncaught exception is
    `Except.error`, a caught one is handled where the source handles it.
  * The network (urlopen + XML parse) is an abstract environment `Env`
    mapping a URL and an attempt index to an outcome; the XML documents
    themselves are trees of `XmlElem`, and `get_elements` performs the same
    two-level `findall` + attribute extraction as the source.
  * `numpy` count arrays that are filled strictly sequentially
    (`nxpts[icnt1] = ...; icnt1 += 1`) are accumulated as Lean lists in the
    same order; `np.zeros(n)` with in-place `set` is used where the index
    arithmetic matters.
-/

/-- A Python value as used by the scripts' nested `invntry` lists:
strings, integers, and (heterogeneous) lists. -/
inductive Py where
  | str (s : String)
  | int (n : Int)
  | list (l : List Py)

/-- The Python exceptions that the modelled code can raise. -/
inductive PyExc where
  | httpError      -- urllib.error.HTTPError
  | otherConnError -- any other exception raised by urlopen
  | parseError     -- xml.etree.ElementTree.ParseError (and friends)
  | keyError       -- KeyError (missing XML attribute)
  | nameError      -- NameError / UnboundLocalError (read of an unbound local)
  | indexError     -- IndexError (list index out of range)
  | typeError      -- TypeError (indexing / concatenating a non-list value)
  | valueError     -- ValueError (int() on a non-numeric string)
deriving DecidableEq

/-- Python `list.insert(n, x)`: insert before position `n`, clamping to the
end when `n` is past the end (Python semantics). -/
def pyInsert : List α → Nat → α → List α
  | l, 0, x => x :: l
  | [], _ + 1, x => [x]
  | a :: l, n + 1, x => a :: pyInsert l n x

/-- Python `l[i]` on a list: `IndexError` when out of range. -/
def pyListGet (l : List α) (i : Nat) : Except PyExc α :=
  match l.get? i with
  | some a => .ok a
  | none => .error .indexError

/-- Python indexing `p[i]` of a `Py` value: `TypeError` when `p` is not a
list, `IndexError` when out of range. -/
def pyIndex (p : Py) (i : Nat) : Except PyExc Py :=
  match p with
  | .list l => pyListGet l i
  | _ => .error .typeError

/-- Read a `Py` value along a path of indices. -/
def pyGetPath (p : Py) : List Nat → Except PyExc Py
  | [] => .ok p
  | i :: rest => do pyGetPath (← pyIndex p i) rest

/-- Replace position `i` of a `Py` list (used to write back a mutation). -/
def pySetIdx (p : Py) (i : Nat) (c : Py) : Except PyExc Py :=
  match p with
  | .list l => .ok (.list (l.set i c))
  | _ => .error .typeError

/-- Mutate the `Py` value at a path of indices, as Python's in-place update
of a nested list element does. -/
def pyModifyPath (p : Py) : List Nat → (Py → Except PyExc Py) → Except PyExc Py
  | [], f => f p
  | i :: rest, f => do
      let c ← pyIndex p i
      let c2 ← pyModifyPath c rest f
      pySetIdx p i c2

/-- Python `p.insert(n, x)` on a `Py` list value. -/
def pyInsertIdx (p : Py) (n : Nat) (x : Py) : Except PyExc Py :=
  match p with
  | .list l => .ok (.list (pyInsert l n x))
  | _ => .error .typeError

/-- Python `p.append(x)` on a `Py` list value. -/
def pyAppend (p : Py) (x : Py) : Except PyExc Py :=
  match p with
  | .list l => .ok (.list (l ++ [x]))
  | _ => .error .typeError

/-- Read a `Py` string (string use of a value, e.g. in URL concatenation). -/
def pyStrOf (p : Py) : Except PyExc String :=
  match p with
  | .str s => .ok s
  | _ => .error .typeError

/-- Read a `Py` int. -/
def pyIntOf (p : Py) : Except PyExc Int :=
  match p with
  | .int n => .ok n
  | _ => .error .typeError

/-- A Python for-loop that applies `g` to each element in order, collecting
the results, and propagates the first exception raised. -/
def exceptMap (g : α → Except PyExc β) : List α → Except PyExc (List β)
  | [] => .ok []
  | a :: as => do
      let b ← g a
      let bs ← exceptMap g as
      return b :: bs

/-- `np.array` of a Python list of ints (as used on the count lists). -/
def pyIntListOf (p : Py) : Except PyExc (List Int) :=
  match p with
  | .list l => exceptMap pyIntOf l
  | _ => .error .typeError

/-- Embed a list of ints as a `Py` list (`list(nmdls)` etc.). -/
def intsPy (l : List Int) : Py := .list (l.map .int)

/-- Embed a list of strings as a `Py` list. -/
def strsPy (l : List String) : Py := .list (l.map .str)

/-! ## Strings: splitting, sorting (Python built-ins used by the scripts) -/

/-- Helper for `splitOnChar` (Python `str.split(sep)` with a one-character
separator), accumulating the current field in reverse. -/
def splitOnCharAux (sep : Char) : List Char → List Char → List (List Char)
  | [], cur => [cur.reverse]
  | c :: cs, cur =>
    if c = sep then cur.reverse :: splitOnCharAux sep cs []
    else splitOnCharAux sep cs (c :: cur)

/-- Python `s.split(sep)` for a one-character separator. -/
def pySplit (s : String) (sep : Char) : List String :=
  (splitOnCharAux sep s.data []).map fun l => ⟨l⟩

/-- `os.path.basename`: the part of a path after the last slash. -/
def pyBasename (s : String) : String :=
  (pySplit s '/').getLastD ""

/-- Python string `<=`: lexicographic comparison by code point. -/
def lexLe : List Char → List Char → Bool
  | [], _ => true
  | _ :: _, [] => false
  | a :: as, b :: bs => if a = b then lexLe as bs else decide (a < b)

/-- Insertion step of `pySorted`. -/
def insertSorted (x : String) : List String → List String
  | [] => [x]
  | y :: ys => if lexLe x.data y.data then x :: y :: ys else y :: insertSorted x ys

/-- Python `sorted` on a list of strings: ascending lexicographic order by
code point (stability is irrelevant here: the sort keys are directory
names, distinct within one listing). -/
def pySorted : List String → List String
  | [] => []
  | x :: xs => insertSorted x (pySorted xs)

/-- Python `int(s)` on the all-digit strings produced by version suffixes;
`ValueError` on an empty or non-digit string (sign/whitespace forms do not
occur in version names). -/
def pyStrToInt (s : String) : Except PyExc Int :=
  match s.data with
  | [] => .error .valueError
  | ds =>
    if ds.all (fun c => 48 ≤ c.toNat ∧ c.toNat ≤ 57) then
      .ok ((ds.foldl (fun a c => a * 10 + (c.toNat - 48)) 0 : Nat) : Int)
    else .error .valueError

/-! ## The XML catalog model

`get_elements` only ever inspects the parsed document through
`root.findall(tag1, ns)` and, per child, `child.findall(tag2, ns)`, reading
one attribute per matched element.  An `XmlElem` keeps exactly that
structure: a tag, the immediate children, and the attribute map. -/

structure XmlElem where
  tag : String
  children : List XmlElem
  attrib : List (String × String)

/-- `element.findall(tag, ns)` restricted to a plain tag path: the immediate
children whose (namespace-expanded) tag matches. -/
def findall (tag : String) (e : XmlElem) : List XmlElem :=
  e.children.filter fun c => c.tag = tag

/-- The attribute extraction of the CCMI-1 `get_elements`: guarded by
`if attribute_name in work1.attrib`, so missing attributes are skipped. -/
def extractAttrs (root : XmlElem) (tag1 tag2 attrName : String) : List String :=
  (findall tag1 root).flatMap fun child =>
    (findall tag2 child).filterMap fun work1 => List.lookup attrName work1.attrib

/-- The attribute extraction of the CCMI-2022 `get_elements`:
`work1.attrib[attribute_name]` unguarded, so a missing attribute raises
`KeyError`. -/
def extractAttrsE (root : XmlElem) (tag1 tag2 attrName : String) : Except PyExc (List String) := do
  let groups ← exceptMap (fun child =>
    exceptMap (fun work1 =>
      match List.lookup attrName work1.attrib with
      | some v => Except.ok v
      | none => Except.error PyExc.keyError) (findall tag2 child)) (findall tag1 root)
  return groups.flatten

/-! ## The network environment and the two `get_elements` variants -/

/-- Outcome of one `urlopen(url)` attempt.  On success the socket carries
the result of the subsequent `ET.parse`: `some root` for a well-formed
document, `none` when parsing raises. -/
inductive UrlRes where
  | ok (doc : Option XmlElem)
  | httpErr
  | otherErr

/-- The remote environment: what the `ntry`-th `urlopen` of a URL does. -/
structure Env where
  urlres : String → Nat → UrlRes

/-- `urlopen(url)` on attempt `ntry`: raises `HTTPError` or another
connection error, or returns the socket. -/
def urlopenE (env : Env) (url : String) (ntry : Nat) : Except PyExc (Option XmlElem) :=
  match env.urlres url ntry with
  | .ok d => .ok d
  | .httpErr => .error .httpError
  | .otherErr => .error .otherConnError

/-- `ET.parse(usock)`: the parse outcome carried by the socket. -/
def etParse (usock : Option XmlElem) : Except PyExc XmlElem :=
  match usock with
  | some root => .ok root
  | none => .error .parseError

/-- Exit state of the CCMI-1 retry loop. -/
inductive Ccmi1Open where
  | broke (usock : Option XmlElem)  -- urlopen succeeded; loop broke
  | returnedEmpty                   -- an except-handler returned [] from get_elements

/-- The CCMI-1 retry loop (`for ntry in range(5)` with both handlers):
`HTTPError` retries, returning `[]` on the last attempt (`ntry == 4`, i.e.
`left = 0`); any other exception returns `[]` at once.  The `left = 0` base
case is the (unreachable from 5 attempts) `if usock is None: return []`
check after the loop. -/
def ccmi1OpenLoop (env : Env) (url : String) : Nat → Nat → Ccmi1Open
  | _, 0 => .returnedEmpty
  | ntry, left + 1 =>
    match urlopenE env url ntry with
    | .ok d => .broke d
    | .error .httpError =>
        if left = 0 then .returnedEmpty else ccmi1OpenLoop env url (ntry + 1) left
    | .error _ => .returnedEmpty

/-- Number of `urlopen` calls the CCMI-1 retry loop makes. -/
def ccmi1OpenCount (env : Env) (url : String) : Nat → Nat → Nat
  | _, 0 => 0
  | ntry, left + 1 =>
    1 + match urlopenE env url ntry with
        | .ok _ => 0
        | .error .httpError =>
            if left = 0 then 0 else ccmi1OpenCount env url (ntry + 1) left
        | .error _ => 0

/-- `get_elements` of the CCMI-1 script: every failure mode (HTTP errors
after 5 attempts, other connection errors, XML parse errors) is caught and
turned into `[]`; missing attributes are skipped by the `in attrib` guard. -/
def ccmi1GetElementsE (env : Env) (url tag1 tag2 attrName : String) :
    Except PyExc (List String) :=
  match ccmi1OpenLoop env url 0 5 with
  | .returnedEmpty => .ok []
  | .broke usock =>
    match etParse usock with          -- try: xmldoc = ET.parse(usock) ...
    | .error _ => .ok []              -- except Exception: return []
    | .ok root => .ok (extractAttrs root tag1 tag2 attrName)

/-- The CCMI-2022 retry loop: only `HTTPError` is caught (and merely
printed); any other exception propagates.  If all 5 attempts raise
`HTTPError` the loop ends with the local `usock` never bound (`ok none`). -/
def ccmi2022OpenLoop (env : Env) (url : String) : Nat → Nat → Except PyExc (Option (Option XmlElem))
  | _, 0 => .ok none
  | ntry, left + 1 =>
    match urlopenE env url ntry with
    | .ok d => .ok (some d)
    | .error .httpError => ccmi2022OpenLoop env url (ntry + 1) left
    | .error e => .error e

/-- Number of `urlopen` calls the CCMI-2022 retry loop makes. -/
def ccmi2022OpenCount (env : Env) (url : String) : Nat → Nat → Nat
  | _, 0 => 0
  | ntry, left + 1 =>
    1 + match urlopenE env url ntry with
        | .ok _ => 0
        | .error .httpError => ccmi2022OpenCount env url (ntry + 1) left
        | .error _ => 0

/-- `get_elements` of the CCMI-2022 script: after the loop the code runs
`ET.parse(usock)` unconditionally, so exhausting all attempts reads the
unbound local `usock` and raises `NameError`; parse errors and missing
attributes (`KeyError`) propagate as well. -/
def ccmi2022GetElementsE (env : Env) (url tag1 tag2 attrName : String) :
    Except PyExc (List String) := do
  match ← ccmi2022OpenLoop env url 0 5 with
  | none => .error .nameError
  | some usock => do
      let root ← etParse usock
      extractAttrsE root tag1 tag2 attrName

/-- The tag/attribute triple used for every directory-level listing. -/
def dirTag1 : String := "default:dataset"

/-- Second tag of a directory-level listing. -/
def dirTag2 : String := "default:catalogRef"

/-- The xlink title attribute read at directory level. -/
def xlinkTitle : String := "\x7bhttp://www.w3.org/1999/xlink\x7dtitle"

/-- Second tag of a file-level listing (`get_elements(url, 'default:dataset',
'default:dataset', 'urlPath')`). -/
def fileTag2 : String := "default:dataset"

/-- The attribute read at file level. -/
def urlPathAttr : String := "urlPath"

/-! ## Stub environments (fixed child sets per container) -/

/-- A directory catalog document listing the given child names: one
container `dataset` whose `catalogRef` children carry the xlink title. -/
def mkDirCatalog (names : List String) : XmlElem :=
  ⟨"catalog",
   [⟨dirTag1, names.map fun n => ⟨dirTag2, [], [(xlinkTitle, n)]⟩, []⟩],
   []⟩

/-- A file-level catalog document listing the given file paths: one
container `dataset` whose nested `dataset` children carry `urlPath`. -/
def mkFileCatalog (paths : List String) : XmlElem :=
  ⟨"catalog",
   [⟨dirTag1, paths.map fun p => ⟨fileTag2, [], [(urlPathAttr, p)]⟩, []⟩],
   []⟩

/-- The stub DirectoryLister environment: every URL answers immediately
with a directory catalog listing `f url`. -/
def stubEnv (f : String → List String) : Env :=
  ⟨fun url _ => .ok (some (mkDirCatalog (f url)))⟩

theorem inner_filterMap (names : List String) :
    ((names.map fun n => (⟨dirTag2, [], [(xlinkTitle, n)]⟩ : XmlElem)).filter
        (fun c => c.tag = dirTag2)).filterMap
      (fun w => List.lookup xlinkTitle w.attrib) = names := by
  induction names with
  | nil => rfl
  | cons n ns ih => simpa [List.filter_cons] using ih

theorem extractAttrs_mkDirCatalog (names : List String) :
    extractAttrs (mkDirCatalog names) dirTag1 dirTag2 xlinkTitle = names := by
  simpa [extractAttrs, mkDirCatalog, findall, List.filter_cons] using inner_filterMap names

theorem inner_exceptMap (names : List String) :
    exceptMap (fun w =>
      match List.lookup xlinkTitle w.attrib with
      | some v => Except.ok v
      | none => Except.error PyExc.keyError)
      ((names.map fun n => (⟨dirTag2, [], [(xlinkTitle, n)]⟩ : XmlElem)).filter
        (fun c => c.tag = dirTag2)) = .ok names := by
  induction names with
  | nil => rfl
  | cons n ns ih => simp_all [List.filter_cons, exceptMap]; rfl

theorem extractAttrsE_mkDirCatalog (names : List String) :
    extractAttrsE (mkDirCatalog names) dirTag1 dirTag2 xlinkTitle = .ok names := by
  have h := inner_exceptMap names
  simp [extractAttrsE, mkDirCatalog, findall, List.filter_cons, exceptMap] at *
  simp [h]
  rfl

theorem ccmi1GetElementsE_stub (f : String → List String) (url : String) :
    ccmi1GetElementsE (stubEnv f) url dirTag1 dirTag2 xlinkTitle = .ok (f url) :=
  congrArg Except.ok (extractAttrs_mkDirCatalog (f url))

theorem ccmi2022GetElementsE_stub (f : String → List String) (url : String) :
    ccmi2022GetElementsE (stubEnv f) url dirTag1 dirTag2 xlinkTitle = .ok (f url) :=
  extractAttrsE_mkDirCatalog (f url)

/-! ## The persisted inventory artifact: pprint / eval round trip

`create_inventory_file` persists `fullinvntry` with `pprint.pprint` (the
Python literal representation of the nested list, with layout whitespace),
and the reload path reads it back with `eval(f.read())`.  `renderPyChars`
produces that literal (in its canonical one-line spacing: `pprint` differs
from it only by inter-token whitespace, which `eval` ignores and the parser
below skips), and `parseVal`/`parseItems` model the literal reader. -/

/-- The single-quote character Python repr uses around strings. -/
def quoteChar : Char := Char.ofNat 39

/-- Decimal digit character for `n < 10` (clamped at 9). -/
def digitCharOf (n : Nat) : Char :=
  match n with
  | 0 => '0' | 1 => '1' | 2 => '2' | 3 => '3' | 4 => '4'
  | 5 => '5' | 6 => '6' | 7 => '7' | 8 => '8' | _ => '9'

/-- Decimal digits of `n`, most significant first (fuel-driven so that it
evaluates by kernel reduction; `fuel = n + 1` always suffices). -/
def natDigitsAux : Nat → Nat → List Char → List Char
  | 0, _, acc => acc
  | fuel + 1, n, acc =>
    if n < 10 then digitCharOf n :: acc
    else natDigitsAux fuel (n / 10) (digitCharOf (n % 10) :: acc)

/-- Decimal digits of a natural number. -/
def natDigits (n : Nat) : List Char := natDigitsAux (n + 1) n []

/-- Python repr of an integer. -/
def intChars (n : Int) : List Char :=
  if n < 0 then '-' :: natDigits (-n).toNat else natDigits n.toNat

mutual

/-- Python repr of a `Py` value, as a character list. -/
def renderPyChars : Py → List Char
  | .str s => quoteChar :: (s.data ++ [quoteChar])
  | .int n => intChars n
  | .list l => '[' :: (renderItems l ++ [']'])

/-- Python repr of the comma-separated items of a list. -/
def renderItems : List Py → List Char
  | [] => []
  | [p] => renderPyChars p
  | p :: q :: ps => renderPyChars p ++ ',' :: ' ' :: renderItems (q :: ps)

end

/-- The text `pprint` writes for a value (canonical spacing). -/
def renderPy (p : Py) : String := ⟨renderPyChars p⟩

/-- Whitespace characters `eval` skips between tokens. -/
def isWsCh (c : Char) : Bool := c = ' ' || c = '\n' || c = '\t' || c = '\r'

/-- Skip inter-token whitespace. -/
def skipWs (cs : List Char) : List Char := cs.dropWhile isWsCh

/-- Decimal digit test. -/
def isDigitCh (c : Char) : Bool := 48 ≤ c.toNat && c.toNat ≤ 57

/-- Value of a digit character. -/
def digitVal (c : Char) : Nat := c.toNat - 48

/-- Consume a run of digits, folding them onto an accumulator. -/
def parseNatLoop : Nat → List Char → Nat × List Char
  | a, [] => (a, [])
  | a, c :: cs => if isDigitCh c then parseNatLoop (a * 10 + digitVal c) cs else (a, c :: cs)

/-- Read an integer literal. -/
def parseIntTok : List Char → Option (Int × List Char)
  | [] => none
  | c :: cs =>
    if c = '-' then
      match cs with
      | [] => none
      | d :: cs2 =>
        if isDigitCh d then
          let (n, r) := parseNatLoop (digitVal d) cs2
          some (-(n : Int), r)
        else none
    else if isDigitCh c then
      let (n, r) := parseNatLoop (digitVal c) cs
      some ((n : Int), r)
    else none

/-- Scan a string literal body up to the closing quote. -/
def scanStrAux : List Char → Option (List Char × List Char)
  | [] => none
  | c :: cs =>
    if c = quoteChar then some ([], cs)
    else
      match scanStrAux cs with
      | some (s, r) => some (c :: s, r)
      | none => none

mutual

/-- Read one Python literal value (string, int, or list). -/
def parseVal : Nat → List Char → Option (Py × List Char)
  | 0, _ => none
  | fuel + 1, cs =>
    match skipWs cs with
    | [] => none
    | c :: rest =>
      if c = quoteChar then
        match scanStrAux rest with
        | some (s, r) => some (.str ⟨s⟩, r)
        | none => none
      else if c = '[' then
        match parseItems fuel rest with
        | some (l, r) => some (.list l, r)
        | none => none
      else
        match parseIntTok (c :: rest) with
        | some (n, r) => some (.int n, r)
        | none => none

/-- Read the items of a list literal, up to and including the closing
bracket. -/
def parseItems : Nat → List Char → Option (List Py × List Char)
  | 0, _ => none
  | fuel + 1, cs =>
    match skipWs cs with
    | [] => none
    | c :: r =>
      if c = ']' then some ([], r)
      else
        match parseVal fuel (c :: r) with
        | none => none
        | some (v, r1) =>
          match skipWs r1 with
          | [] => none
          | d :: r2 =>
            if d = ',' then
              match parseItems fuel r2 with
              | some (vs, r3) => some (v :: vs, r3)
              | none => none
            else if d = ']' then some ([v], r2)
            else none

end

/-- `eval(f.read())` on a persisted artifact: parse the single literal,
requiring only whitespace after it. -/
def parsePy (s : String) : Option Py :=
  match parseVal (s.length + 1) s.data with
  | some (v, r) => if skipWs r = [] then some v else none
  | none => none

/-- Strings that survive the repr/eval round trip verbatim: no quote to
close the literal early, no backslash to start an escape.  (Python's repr
would escape such characters; directory names never contain them.) -/
inductive PyGood : Py → Prop where
  | str : ∀ s : String, (∀ c ∈ s.data, c ≠ quoteChar ∧ c ≠ '\\') → PyGood (.str s)
  | int : ∀ n : Int, PyGood (.int n)
  | list : ∀ l : List Py, (∀ p ∈ l, PyGood p) → PyGood (.list l)

mutual

/-- Fuel bound for the parser on a rendered value. -/
def pySize : Py → Nat
  | .str _ => 1
  | .int _ => 1
  | .list l => pySizeList l + 2

/-- Fuel bound for the items of a rendered list. -/
def pySizeList : List Py → Nat
  | [] => 0
  | [p] => pySize p
  | p :: q :: ps => pySize p + 1 + pySizeList (q :: ps)

end

/-! ### Token-level round-trip lemmas -/

/-- What may legally follow a rendered value: nothing, or a non-digit
character (so that an integer token is not absorbed into the suffix). -/
def restOk : List Char → Prop
  | [] => True
  | c :: _ => isDigitCh c = false

theorem digitCharOf_val (n : Nat) (h : n < 10) : digitVal (digitCharOf n) = n := by
  interval_cases n <;> decide

theorem isDigitCh_digitCharOf (n : Nat) (h : n < 10) : isDigitCh (digitCharOf n) = true := by
  interval_cases n <;> decide

theorem digit_not_ws {c : Char} (h : isDigitCh c = true) : isWsCh c = false := by
  by_contra hw
  rw [Bool.not_eq_false] at hw
  simp only [isWsCh, Bool.or_eq_true, decide_eq_true_eq] at hw
  rcases hw with ((h1 | h1) | h1) | h1 <;> subst h1 <;> exact absurd h (by decide)

theorem digit_ne {c d : Char} (h : isDigitCh c = true) (hd : isDigitCh d = false) : c ≠ d := by
  intro he
  subst he
  rw [h] at hd
  exact absurd hd (by simp)

theorem natDigitsAux_spec : ∀ fuel n acc, n < fuel →
    ∃ ds, natDigitsAux fuel n acc = ds ++ acc ∧ ds ≠ [] ∧
      (∀ c ∈ ds, isDigitCh c = true) ∧
      ∀ a : Nat, List.foldl (fun a c => a * 10 + digitVal c) a ds = a * 10 ^ ds.length + n := by
  intro fuel
  induction fuel with
  | zero => intro n acc h; exact absurd h (Nat.not_lt_zero n)
  | succ f ih =>
    intro n acc h
    by_cases h10 : n < 10
    · refine ⟨[digitCharOf n], by simp [natDigitsAux, h10], by simp, ?_, ?_⟩
      · intro c hc
        simp only [List.mem_singleton] at hc
        subst hc
        exact isDigitCh_digitCharOf n h10
      · intro a
        simp [digitCharOf_val n h10]
    · have hn0 : 0 < n := by omega
      have hdiv : n / 10 < n := Nat.div_lt_self hn0 (by norm_num)
      have hn : n / 10 < f := by omega
      obtain ⟨ds, hEq, hNe, hDig, hVal⟩ := ih (n / 10) (digitCharOf (n % 10) :: acc) hn
      refine ⟨ds ++ [digitCharOf (n % 10)], ?_, by simp [hNe], ?_, ?_⟩
      · simp [natDigitsAux, h10, hEq]
      · intro c hc
        rcases List.mem_append.mp hc with hin | hin
        · exact hDig c hin
        · simp only [List.mem_singleton] at hin
          subst hin
          exact isDigitCh_digitCharOf _ (Nat.mod_lt n (by norm_num))
      · intro a
        rw [List.foldl_append, hVal a]
        simp only [List.foldl_cons, List.foldl_nil, List.length_append, List.length_singleton]
        rw [digitCharOf_val _ (Nat.mod_lt n (by norm_num))]
        calc (a * 10 ^ ds.length + n / 10) * 10 + n % 10
            = a * (10 ^ ds.length * 10) + (10 * (n / 10) + n % 10) := by ring
          _ = a * 10 ^ (ds.length + 1) + n := by rw [Nat.div_add_mod n 10, pow_succ]

theorem natDigits_spec (n : Nat) :
    ∃ ds, natDigits n = ds ∧ ds ≠ [] ∧ (∀ c ∈ ds, isDigitCh c = true) ∧
      List.foldl (fun a c => a * 10 + digitVal c) 0 ds = n := by
  obtain ⟨ds, hEq, hNe, hDig, hVal⟩ := natDigitsAux_spec (n + 1) n [] (Nat.lt_succ_self n)
  refine ⟨ds, by simpa [natDigits] using hEq, hNe, hDig, ?_⟩
  simpa using hVal 0

theorem parseNatLoop_digits : ∀ ds a rest, (∀ c ∈ ds, isDigitCh c = true) → restOk rest →
    parseNatLoop a (ds ++ rest) =
      (ds.foldl (fun a c => a * 10 + digitVal c) a, rest) := by
  intro ds
  induction ds with
  | nil =>
    intro a rest _ hr
    cases rest with
    | nil => rfl
    | cons c cs =>
      simp only [restOk] at hr
      simp [parseNatLoop, hr]
  | cons d ds ih =>
    intro a rest hd hr
    simp only [List.cons_append, parseNatLoop, hd d (List.mem_cons_self d ds), if_true,
      List.foldl_cons]
    exact ih _ rest (fun c hc => hd c (List.mem_cons_of_mem d hc)) hr

theorem intChars_head (n : Int) :
    ∃ c cs, intChars n = c :: cs ∧ isWsCh c = false ∧ c ≠ quoteChar ∧ c ≠ '[' ∧
      c ≠ ']' ∧ c ≠ ',' := by
  by_cases hn : n < 0
  · exact ⟨'-', natDigits (-n).toNat, by simp [intChars, hn], by decide, by decide, by decide,
      by decide, by decide⟩
  · obtain ⟨ds, hEq, hNe, hDig, _⟩ := natDigits_spec n.toNat
    cases ds with
    | nil => exact absurd rfl hNe
    | cons d ds2 =>
      have hd : isDigitCh d = true := hDig d (List.mem_cons_self d ds2)
      exact ⟨d, ds2, by simp [intChars, hn, hEq], digit_not_ws hd,
        digit_ne hd (by decide), digit_ne hd (by decide), digit_ne hd (by decide),
        digit_ne hd (by decide)⟩

theorem parseIntTok_intChars (n : Int) (rest : List Char) (hr : restOk rest) :
    parseIntTok (intChars n ++ rest) = some (n, rest) := by
  by_cases hn : n < 0
  · obtain ⟨ds, hEq, hNe, hDig, hVal⟩ := natDigits_spec (-n).toNat
    cases ds with
    | nil => exact absurd rfl hNe
    | cons d ds2 =>
      have hd : isDigitCh d = true := hDig d (List.mem_cons_self d ds2)
      have hrec := parseNatLoop_digits ds2 (digitVal d) rest
        (fun c hc => hDig c (List.mem_cons_of_mem d hc)) hr
      simp only [intChars, if_pos hn, hEq, List.cons_append, parseIntTok, if_pos rfl, hd,
        if_true, hrec]
      have hv : List.foldl (fun a c => a * 10 + digitVal c) (digitVal d) ds2 = (-n).toNat := by
        simpa using hVal
      rw [hv]
      have hn2 : -(((-n).toNat : Nat) : Int) = n := by omega
      rw [hn2]
  · obtain ⟨ds, hEq, hNe, hDig, hVal⟩ := natDigits_spec n.toNat
    cases ds with
    | nil => exact absurd rfl hNe
    | cons d ds2 =>
      have hd : isDigitCh d = true := hDig d (List.mem_cons_self d ds2)
      have hdm : d ≠ '-' := digit_ne hd (by decide)
      have hrec := parseNatLoop_digits ds2 (digitVal d) rest
        (fun c hc => hDig c (List.mem_cons_of_mem d hc)) hr
      simp only [intChars, if_neg hn, hEq, List.cons_append, parseIntTok, if_neg hdm, hd,
        if_true, hrec]
      have hv : List.foldl (fun a c => a * 10 + digitVal c) (digitVal d) ds2 = n.toNat := by
        simpa using hVal
      rw [hv]
      have hn2 : ((n.toNat : Nat) : Int) = n := by omega
      rw [hn2]

theorem scanStrAux_append (s : List Char) (rest : List Char)
    (h : ∀ c ∈ s, c ≠ quoteChar) :
    scanStrAux (s ++ quoteChar :: rest) = some (s, rest) := by
  induction s with
  | nil => simp [scanStrAux]
  | cons c cs ih =>
    have hc : c ≠ quoteChar := h c (List.mem_cons_self c cs)
    simp only [List.cons_append, scanStrAux, if_neg hc, List.append_eq]
    rw [ih (fun x hx => h x (List.mem_cons_of_mem c hx))]

theorem skipWs_cons {c : Char} (h : isWsCh c = false) (cs : List Char) :
    skipWs (c :: cs) = c :: cs := by
  simp [skipWs, List.dropWhile_cons, h]

theorem skipWs_wsLead : ∀ pre : List Char, (∀ c ∈ pre, isWsCh c = true) →
    ∀ x, skipWs (pre ++ x) = skipWs x := by
  intro pre
  induction pre with
  | nil => intro _ x; rfl
  | cons c cs ih =>
    intro h x
    simp only [List.cons_append, skipWs, List.dropWhile_cons, h c (List.mem_cons_self c cs)]
    exact ih (fun a ha => h a (List.mem_cons_of_mem c ha)) x

theorem renderHead (v : Py) :
    ∃ c cs, renderPyChars v = c :: cs ∧ isWsCh c = false ∧ c ≠ ']' ∧ c ≠ ',' := by
  cases v with
  | str s =>
    exact ⟨quoteChar, s.data ++ [quoteChar], by simp [renderPyChars], by decide, by decide,
      by decide⟩
  | int n =>
    obtain ⟨c, cs, hEq, h1, _, _, h4, h5⟩ := intChars_head n
    exact ⟨c, cs, by simp [renderPyChars, hEq], h1, h4, h5⟩
  | list l =>
    exact ⟨'[', renderItems l ++ [']'], by simp [renderPyChars], by decide, by decide, by decide⟩

theorem pySize_pos (v : Py) : 1 ≤ pySize v := by
  cases v <;> simp [pySize]


theorem restOk_cons {c : Char} (h : isDigitCh c = false) (rest : List Char) :
    restOk (c :: rest) := by
  simp [restOk, h]

theorem parse_render_ok : ∀ fuel,
    (∀ v rest, pySize v ≤ fuel → PyGood v → restOk rest →
      parseVal fuel (renderPyChars v ++ rest) = some (v, rest)) ∧
    (∀ l pre rest, pySizeList l + 1 ≤ fuel → (∀ p ∈ l, PyGood p) →
      (∀ c ∈ pre, isWsCh c = true) → restOk rest →
      parseItems fuel (pre ++ (renderItems l ++ (']' :: rest))) = some (l, rest)) := by
  intro fuel
  induction fuel with
  | zero =>
    constructor
    · intro v rest hf _ _
      have := pySize_pos v
      omega
    · intro l pre rest hf _ _ _
      omega
  | succ f ih =>
    obtain ⟨ihA, ihB⟩ := ih
    constructor
    · intro v rest hf hg hr
      cases v with
      | str s =>
        cases hg with
        | str _ hs =>
          have hq : ∀ c ∈ s.data, c ≠ quoteChar := fun c hc => (hs c hc).1
          have hin : renderPyChars (.str s) ++ rest =
              quoteChar :: (s.data ++ (quoteChar :: rest)) := by
            simp [renderPyChars]
          rw [hin]
          simp only [parseVal, skipWs_cons (by decide : isWsCh quoteChar = false)]
          rw [scanStrAux_append s.data rest hq]
          simp
      | int n =>
        obtain ⟨c, cs2, hEq, hw, hq, hb, _, _⟩ := intChars_head n
        have hin : renderPyChars (.int n) ++ rest = c :: (cs2 ++ rest) := by
          simp [renderPyChars, hEq]
        rw [hin]
        simp only [parseVal, skipWs_cons hw, if_neg hq, if_neg hb]
        have hback : c :: (cs2 ++ rest) = intChars n ++ rest := by simp [hEq]
        rw [hback, parseIntTok_intChars n rest hr]
      | list l =>
        cases hg with
        | list _ hl =>
          have hin : renderPyChars (.list l) ++ rest =
              '[' :: (renderItems l ++ (']' :: rest)) := by
            simp [renderPyChars]
          rw [hin]
          simp only [parseVal, skipWs_cons (by decide : isWsCh '[' = false),
            if_neg (by decide : ¬('[' = quoteChar))]
          have hsz : pySizeList l + 1 ≤ f := by
            have hps : pySize (.list l) = pySizeList l + 2 := by simp [pySize]
            omega
          have hitems := ihB l [] rest hsz hl (by simp) hr
          simp only [List.nil_append] at hitems
          rw [hitems]
          simp
    · intro l pre rest hf hl hpre hr
      cases l with
      | nil =>
        have hin : pre ++ (renderItems [] ++ (']' :: rest)) = pre ++ (']' :: rest) := by
          simp [renderItems]
        rw [hin]
        simp only [parseItems]
        rw [skipWs_wsLead pre hpre, skipWs_cons (by decide : isWsCh ']' = false)]
        simp
      | cons p ps =>
        obtain ⟨c, cs2, hEq, hw, hnb, hnc⟩ := renderHead p
        cases ps with
        | nil =>
          have hsz : pySize p ≤ f := by
            have hps : pySizeList [p] = pySize p := by simp [pySizeList]
            omega
          have hval := ihA p (']' :: rest) hsz (hl p (List.mem_cons_self p []))
            (restOk_cons (by decide) rest)
          have hback : renderPyChars p ++ (']' :: rest) = c :: (cs2 ++ (']' :: rest)) := by
            simp [hEq]
          rw [hback] at hval
          simp only [renderItems, parseItems, List.append_assoc, List.cons_append,
            skipWs_wsLead pre hpre, hEq, skipWs_cons hw, if_neg hnb, hval,
            skipWs_cons (by decide : isWsCh ']' = false)]
          simp
        | cons q qs =>
          have hszl : pySizeList (p :: q :: qs) = pySize p + 1 + pySizeList (q :: qs) := by
            simp [pySizeList]
          have hsz : pySize p ≤ f := by omega
          have hval := ihA p (',' :: ' ' :: (renderItems (q :: qs) ++ (']' :: rest))) hsz
            (hl p (List.mem_cons_self p _)) (restOk_cons (by decide) _)
          have hback : renderPyChars p ++
              (',' :: ' ' :: (renderItems (q :: qs) ++ (']' :: rest))) =
              c :: (cs2 ++ (',' :: ' ' :: (renderItems (q :: qs) ++ (']' :: rest)))) := by
            simp [hEq]
          rw [hback] at hval
          have hsz2 : pySizeList (q :: qs) + 1 ≤ f := by
            have := pySize_pos p
            omega
          have hrest := ihB (q :: qs) [' '] rest hsz2
            (fun x hx => hl x (List.mem_cons_of_mem p hx)) (by decide) hr
          simp only [List.singleton_append] at hrest
          simp only [renderItems, parseItems, List.append_assoc, List.cons_append,
            skipWs_wsLead pre hpre, hEq, skipWs_cons hw, if_neg hnb, hval,
            skipWs_cons (by decide : isWsCh ',' = false), hrest]
          simp

mutual

theorem pySize_le_render (v : Py) : pySize v ≤ (renderPyChars v).length := by
  cases v with
  | str s => simp [pySize, renderPyChars]
  | int n =>
    obtain ⟨ds, hEq, hNe, _, _⟩ := natDigits_spec n.toNat
    by_cases hn : n < 0
    · simp [pySize, renderPyChars, intChars, hn]
    · simp only [pySize, renderPyChars, intChars, if_neg hn, hEq]
      have : 0 < (ds : List Char).length := List.length_pos.mpr hNe
      omega
  | list l =>
    have h := pySizeList_le_renderItems l
    simp only [pySize, renderPyChars, List.length_cons, List.length_append,
      List.length_singleton]
    omega

theorem pySizeList_le_renderItems (l : List Py) : pySizeList l ≤ (renderItems l).length := by
  cases l with
  | nil => simp [pySizeList, renderItems]
  | cons p ps =>
    cases ps with
    | nil =>
      have h := pySize_le_render p
      simpa [pySizeList, renderItems] using h
    | cons q qs =>
      have h1 := pySize_le_render p
      have h2 := pySizeList_le_renderItems (q :: qs)
      simp only [pySizeList, renderItems, List.length_append, List.length_cons]
      omega

end

/-- The round-trip law at the level of values: re-`eval`ing the persisted
repr of any quote/backslash-free value reproduces it exactly. -/
theorem parsePy_renderPy (v : Py) (hg : PyGood v) : parsePy (renderPy v) = some v := by
  have hA := (parse_render_ok ((renderPyChars v).length + 1)).1 v []
    (le_trans (pySize_le_render v) (Nat.le_succ _)) hg trivial
  simp only [List.append_nil] at hA
  have hdata : (⟨renderPyChars v⟩ : String).data = renderPyChars v := rfl
  have hlen : (⟨renderPyChars v⟩ : String).length = (renderPyChars v).length := rfl
  unfold parsePy renderPy
  rw [hdata, hlen, hA]
  rfl

/-! ## The inventory builders (`create_inventory_file`) -/

/-- A directory-level listing with the CCMI-1 `get_elements`. -/
def ccmi1ListDirs (env : Env) (url : String) : Except PyExc (List String) :=
  ccmi1GetElementsE env url dirTag1 dirTag2 xlinkTitle

/-- A directory-level listing with the CCMI-2022 `get_elements`. -/
def ccmi2022ListDirs (env : Env) (url : String) : Except PyExc (List String) :=
  ccmi2022GetElementsE env url dirTag1 dirTag2 xlinkTitle

/-- The CCMI-1 experiment-insert loop
`for ik in range(len(expname)): invntry[ii][1].insert(2*ij+ik+1, [expname[ik]])`
on the model-mix list of one institution. -/
def insertExptRun (mix : List Py) (ij ik : Nat) : List String → List Py
  | [] => mix
  | e :: es => insertExptRun (pyInsert mix (2 * ij + ik + 1) (.list [.str e])) ij (ik + 1) es

/-- The per-institution level-2 loop of the CCMI-1 builder: `twork` is the
deepcopy taken before any insert, so the model names iterated (and the URLs
queried) are the clean ones; the mix accumulates the positional inserts and
the experiment counts are collected in `icnt1` order. -/
def ccmi1ExptLoop (env : Env) (ru inst : String) (mix : List Py) (ij : Nat) :
    List String → Except PyExc (List Py × List Int)
  | [] => .ok (mix, [])
  | m :: ms => do
      let expname ← ccmi1ListDirs env (ru ++ inst ++ "/" ++ m ++ "/catalog.xml")
      let mix2 := insertExptRun mix ij 0 expname
      let (mixF, counts) ← ccmi1ExptLoop env ru inst mix2 (ij + 1) ms
      return (mixF, (expname.length : Int) :: counts)

/-- `create_inventory_file` of the CCMI-1 script: two listing levels
(institutions → models → experiments).  Returns the in-memory `fullinvntry`
together with the artifact text written by `pprint` at the end; both the
sequentially-filled `nmdls`/`nxpts` arrays are accumulated in fill order. -/
def ccmi1CreateInventory (env : Env) (ru : String) : Except PyExc (Py × String) := do
  let instts ← ccmi1ListDirs env (ru ++ "catalog.xml")
  let ninst := instts.length
  let lvl1 ← exceptMap (fun inst => do
      let mname ← ccmi1ListDirs env (ru ++ inst ++ "/catalog.xml")
      return (inst, mname)) instts
  let nmdls : List Int := lvl1.map fun im => (im.2.length : Int)
  let lvl2 ← exceptMap (fun im => do
      let r ← ccmi1ExptLoop env ru im.1 (im.2.map Py.str) 0 im.2
      return (im.1, r)) lvl1
  let invntry : Py := .list (lvl2.map fun e => .list [.str e.1, .list e.2.1])
  let nxpts : List Int := (lvl2.map fun e => e.2.2).flatten
  let full : Py := .list [invntry, .list [.int (ninst : Int)], intsPy nmdls, intsPy nxpts]
  return (full, renderPy full)

/-- `create_inventory_file` of the CCMI-2022 script: five listing levels
with positional-offset inserts; the nested `invntry` is read and mutated
through index paths exactly as the source subscripts it, so any out-of-range
subscript surfaces as an `IndexError`. -/
def ccmi2022CreateInventory (env : Env) (ru : String) : Except PyExc (Py × String) := do
  let instts ← ccmi2022ListDirs env (ru ++ "catalog.xml")
  let ninst := instts.length
  let mut invntry : Py := .list []
  let mut nmdls : List Int := List.replicate ninst 0
  for ii in List.range ninst do
    let inst := instts.getD ii ""
    let mname ← ccmi2022ListDirs env (ru ++ inst ++ "/catalog.xml")
    nmdls := nmdls.set ii (mname.length : Int)
    invntry ← pyAppend invntry (.list [.str inst, strsPy mname])
  let tnmdls := (nmdls.map Int.toNat).sum
  -- experiments: invntry[ii][1].insert(2*ij+ik+1, [expname[ik]])
  let mut nxpts : List Int := List.replicate tnmdls 0
  let mut icnt1 := 0
  for ii in List.range ninst do
    let twork ← pyIndex invntry ii
    let tw0 ← pyStrOf (← pyIndex twork 0)
    let tw1 ← pyIndex twork 1
    for ij in List.range (nmdls.getD ii 0).toNat do
      let mij ← pyStrOf (← pyIndex tw1 ij)
      let expname ← ccmi2022ListDirs env (ru ++ tw0 ++ "/" ++ mij ++ "/catalog.xml")
      for ik in List.range expname.length do
        invntry ← pyModifyPath invntry [ii]
          (fun p => pyModifyPath p [1]
            (fun q => pyInsertIdx q (2 * ij + ik + 1) (.list [.str (expname.getD ik "")])))
      nxpts := nxpts.set icnt1 (expname.length : Int)
      icnt1 := icnt1 + 1
  let tnxpts := (nxpts.map Int.toNat).sum
  -- runs: invntry[ii][ij][ik].insert(il+1, [sims[il]])
  let mut nsims : List Int := List.replicate tnxpts 0
  icnt1 := 0
  let mut icnt2 := 0
  for ii in List.range ninst do
    for ij in List.range' 1 (nmdls.getD ii 0).toNat do
      let twork ← pyGetPath invntry [ii, ij]
      for ik in List.range' 1 (nxpts.getD icnt1 0).toNat do
        let a0 ← pyStrOf (← pyGetPath invntry [ii, 0])
        let a1 ← pyStrOf (← pyGetPath invntry [ii, ij, 0])
        let a2 ← pyStrOf (← pyGetPath twork [ik, 0])
        let sims ← ccmi2022ListDirs env (ru ++ a0 ++ "/" ++ a1 ++ "/" ++ a2 ++ "/catalog.xml")
        for il in List.range sims.length do
          invntry ← pyModifyPath invntry [ii, ij, ik]
            (fun p => pyInsertIdx p (il + 1) (.list [.str (sims.getD il "")]))
        nsims := nsims.set icnt2 (sims.length : Int)
        icnt2 := icnt2 + 1
      icnt1 := icnt1 + 1
  let tnsims := (nsims.map Int.toNat).sum
  -- MIP tables: invntry[ii][ij][ik][il].insert(im+1, [tables[im]])
  let mut ntabs : List Int := List.replicate tnsims 0
  icnt1 := 0
  icnt2 := 0
  let mut icnt3 := 0
  for ii in List.range ninst do
    for ij in List.range' 1 (nmdls.getD ii 0).toNat do
      for ik in List.range' 1 (nxpts.getD icnt1 0).toNat do
        let twork ← pyGetPath invntry [ii, ij, ik]
        for il in List.range' 1 (nsims.getD icnt2 0).toNat do
          let a0 ← pyStrOf (← pyGetPath invntry [ii, 0])
          let a1 ← pyStrOf (← pyGetPath invntry [ii, ij, 0])
          let a2 ← pyStrOf (← pyGetPath invntry [ii, ij, ik, 0])
          let a3 ← pyStrOf (← pyGetPath twork [il, 0])
          let tables ← ccmi2022ListDirs env
            (ru ++ a0 ++ "/" ++ a1 ++ "/" ++ a2 ++ "/" ++ a3 ++ "/catalog.xml")
          for im in List.range tables.length do
            invntry ← pyModifyPath invntry [ii, ij, ik, il]
              (fun p => pyInsertIdx p (im + 1) (.list [.str (tables.getD im "")]))
          ntabs := ntabs.set icnt3 (tables.length : Int)
          icnt3 := icnt3 + 1
        icnt2 := icnt2 + 1
      icnt1 := icnt1 + 1
  let tntabs := (ntabs.map Int.toNat).sum
  -- variables: invntry[..][im].insert(1, [varbls[0]]); then [..][im][1].insert(ip, varbls[ip])
  let mut nvars : List Int := List.replicate tntabs 0
  icnt1 := 0
  icnt2 := 0
  icnt3 := 0
  let mut icnt4 := 0
  for ii in List.range ninst do
    for ij in List.range' 1 (nmdls.getD ii 0).toNat do
      let _mdl ← pyStrOf (← pyGetPath invntry [ii, ij, 0])
      for ik in List.range' 1 (nxpts.getD icnt1 0).toNat do
        let _expt ← pyStrOf (← pyGetPath invntry [ii, ij, ik, 0])
        for il in List.range' 1 (nsims.getD icnt2 0).toNat do
          let _rsim ← pyStrOf (← pyGetPath invntry [ii, ij, ik, il, 0])
          let twork ← pyGetPath invntry [ii, ij, ik, il]
          for im in List.range' 1 (ntabs.getD icnt3 0).toNat do
            let a0 ← pyStrOf (← pyGetPath invntry [ii, 0])
            let a1 ← pyStrOf (← pyGetPath invntry [ii, ij, 0])
            let a2 ← pyStrOf (← pyGetPath invntry [ii, ij, ik, 0])
            let a3 ← pyStrOf (← pyGetPath invntry [ii, ij, ik, il, 0])
            let a4 ← pyStrOf (← pyGetPath twork [im, 0])
            let varbls ← ccmi2022ListDirs env
              (ru ++ a0 ++ "/" ++ a1 ++ "/" ++ a2 ++ "/" ++ a3 ++ "/" ++ a4 ++ "/catalog.xml")
            let v0 ← pyListGet varbls 0
            invntry ← pyModifyPath invntry [ii, ij, ik, il, im]
              (fun p => pyInsertIdx p 1 (.list [.str v0]))
            for ip in List.range' 1 (varbls.length - 1) do
              invntry ← pyModifyPath invntry [ii, ij, ik, il, im, 1]
                (fun p => pyInsertIdx p ip (.str (varbls.getD ip "")))
            nvars := nvars.set icnt4 (varbls.length : Int)
            icnt4 := icnt4 + 1
          icnt3 := icnt3 + 1
        icnt2 := icnt2 + 1
      icnt1 := icnt1 + 1
  let full : Py := .list [invntry, .list [.int (ninst : Int)], intsPy nmdls, intsPy nxpts,
    intsPy nsims, intsPy ntabs, intsPy nvars]
  return (full, renderPy full)

theorem ok_bind {α β : Type} (a : α) (k : α → Except PyExc β) :
    (Except.ok a >>= k : Except PyExc β) = k a := rfl

theorem error_bind {α β : Type} (e : PyExc) (k : α → Except PyExc β) :
    (Except.error e >>= k : Except PyExc β) = .error e := rfl

theorem exceptMap_ok {α β : Type} {g : α → Except PyExc β} {h : α → β} :
    ∀ l : List α, (∀ a ∈ l, g a = .ok (h a)) → exceptMap g l = .ok (l.map h) := by
  intro l
  induction l with
  | nil => intro _; rfl
  | cons a as ih =>
    intro H
    have h1 := H a (List.mem_cons_self a as)
    have h2 := ih (fun x hx => H x (List.mem_cons_of_mem a hx))
    simp [exceptMap, h1, h2]
    rfl

/-- The child set the stub reports for a model container. -/
def stubModels (f : String → List String) (ru inst : String) : List String :=
  f (ru ++ inst ++ "/catalog.xml")

/-- The child set the stub reports for an experiment container. -/
def stubExpts (f : String → List String) (ru inst m : String) : List String :=
  f (ru ++ inst ++ "/" ++ m ++ "/catalog.xml")

/-- Pure image of `ccmi1ExptLoop`'s mix under a stub lister. -/
def ccmi1MixStub (f : String → List String) (ru inst : String) :
    List Py → Nat → List String → List Py
  | mix, _, [] => mix
  | mix, ij, m :: ms =>
      ccmi1MixStub f ru inst
        (insertExptRun mix ij 0 (stubExpts f ru inst m)) (ij + 1) ms

theorem ccmi1ExptLoop_stub (f : String → List String) (ru inst : String) :
    ∀ ms mix ij,
      ccmi1ExptLoop (stubEnv f) ru inst mix ij ms =
        .ok (ccmi1MixStub f ru inst mix ij ms,
          ms.map fun m => ((stubExpts f ru inst m).length : Int)) := by
  intro ms
  induction ms with
  | nil => intro mix ij; rfl
  | cons m ms ih =>
    intro mix ij
    simp only [ccmi1ExptLoop, ccmi1ListDirs, ccmi1GetElementsE_stub, ok_bind]
    rw [ih]
    simp only [ok_bind]
    simp only [ccmi1MixStub, stubExpts]
    rfl

/-- The institution entries the CCMI-1 builder produces from a stub. -/
def ccmi1InvStub (f : String → List String) (ru : String) : Py :=
  .list ((f (ru ++ "catalog.xml")).map fun inst =>
    .list [.str inst,
      .list (ccmi1MixStub f ru inst ((stubModels f ru inst).map Py.str) 0
        (stubModels f ru inst))])

/-- The recorded per-institution model counts from a stub. -/
def ccmi1NmdlsStub (f : String → List String) (ru : String) : List Int :=
  (f (ru ++ "catalog.xml")).map fun inst => ((stubModels f ru inst).length : Int)

/-- The recorded per-model experiment counts from a stub, in `icnt1` order. -/
def ccmi1NxptsStub (f : String → List String) (ru : String) : List Int :=
  ((f (ru ++ "catalog.xml")).map fun inst =>
    (stubModels f ru inst).map fun m => ((stubExpts f ru inst m).length : Int)).flatten

/-- The `fullinvntry` value the CCMI-1 builder produces from a stub. -/
def ccmi1FullStub (f : String → List String) (ru : String) : Py :=
  .list [ccmi1InvStub f ru, .list [.int ((f (ru ++ "catalog.xml")).length : Int)],
    intsPy (ccmi1NmdlsStub f ru), intsPy (ccmi1NxptsStub f ru)]

theorem ccmi1CreateInventory_stub (f : String → List String) (ru : String) :
    ccmi1CreateInventory (stubEnv f) ru =
      .ok (ccmi1FullStub f ru, renderPy (ccmi1FullStub f ru)) := by
  have hroot : ccmi1ListDirs (stubEnv f) (ru ++ "catalog.xml") = .ok (f (ru ++ "catalog.xml")) :=
    ccmi1GetElementsE_stub f _
  have hl1 : exceptMap (fun inst => do
        let mname ← ccmi1ListDirs (stubEnv f) (ru ++ inst ++ "/catalog.xml")
        return (inst, mname)) (f (ru ++ "catalog.xml")) =
      .ok ((f (ru ++ "catalog.xml")).map fun inst => (inst, stubModels f ru inst)) := by
    apply exceptMap_ok
    intro a _
    simp [ccmi1ListDirs, ccmi1GetElementsE_stub, stubModels]
  have hl2 : exceptMap (fun im : String × List String => do
        let r ← ccmi1ExptLoop (stubEnv f) ru im.1 (im.2.map Py.str) 0 im.2
        return (im.1, r)) ((f (ru ++ "catalog.xml")).map fun inst => (inst, stubModels f ru inst)) =
      .ok (((f (ru ++ "catalog.xml")).map fun inst => (inst, stubModels f ru inst)).map
        fun im => (im.1, (ccmi1MixStub f ru im.1 (im.2.map Py.str) 0 im.2,
          im.2.map fun m => ((stubExpts f ru im.1 m).length : Int)))) := by
    apply exceptMap_ok
    intro a _
    rw [ccmi1ExptLoop_stub]
    rfl
  simp only [ccmi1CreateInventory, hroot, ok_bind, hl1, hl2]
  simp only [ok_bind, List.map_map]
  simp only [ccmi1FullStub, ccmi1InvStub, ccmi1NmdlsStub, ccmi1NxptsStub, Function.comp]
  rfl

/-! ## Exhausted-retry behaviour -/

/-- All five attempts at a URL raise `HTTPError`. -/
def allHttpFail (env : Env) (url : String) : Prop :=
  ∀ n, n < 5 → env.urlres url n = .httpErr

theorem ccmi1GetElementsE_allFail (env : Env) (url t1 t2 a : String)
    (h : allHttpFail env url) : ccmi1GetElementsE env url t1 t2 a = .ok [] := by
  have h0 := h 0 (by omega)
  have h1 := h 1 (by omega)
  have h2 := h 2 (by omega)
  have h3 := h 3 (by omega)
  have h4 := h 4 (by omega)
  simp [ccmi1GetElementsE, ccmi1OpenLoop, urlopenE, h0, h1, h2, h3, h4]

theorem ccmi2022GetElementsE_allFail (env : Env) (url t1 t2 a : String)
    (h : allHttpFail env url) : ccmi2022GetElementsE env url t1 t2 a = .error .nameError := by
  have h0 := h 0 (by omega)
  have h1 := h 1 (by omega)
  have h2 := h 2 (by omega)
  have h3 := h 3 (by omega)
  have h4 := h 4 (by omega)
  simp [ccmi2022GetElementsE, ccmi2022OpenLoop, urlopenE, h0, h1, h2, h3, h4, ok_bind]

theorem ccmi1OpenCount_le (env : Env) (url : String) :
    ∀ left ntry, ccmi1OpenCount env url ntry left ≤ left := by
  intro left
  induction left with
  | zero => intro ntry; simp [ccmi1OpenCount]
  | succ l ih =>
    intro ntry
    simp only [ccmi1OpenCount]
    cases h : urlopenE env url ntry with
    | ok d => simp
    | error e =>
      cases e <;> simp
      case httpError =>
        by_cases hl : l = 0
        · simp [hl]
        · simp only [hl, if_false]
          have := ih (ntry + 1)
          omega

theorem ccmi2022OpenCount_le (env : Env) (url : String) :
    ∀ left ntry, ccmi2022OpenCount env url ntry left ≤ left := by
  intro left
  induction left with
  | zero => intro ntry; simp [ccmi2022OpenCount]
  | succ l ih =>
    intro ntry
    simp only [ccmi2022OpenCount]
    cases h : urlopenE env url ntry with
    | ok d => simp
    | error e =>
      cases e <;> simp
      case httpError =>
        have := ih (ntry + 1)
        omega

/-- An environment in which every attempt at every URL raises `HTTPError`. -/
def failEnv : Env := ⟨fun _ _ => .httpErr⟩

/-- The stub behind the C6 counterexample: one institution with two models,
one experiment each. -/
def twoModelStub : String → List String := fun u =>
  if u = "R/catalog.xml" then ["I"]
  else if u = "R/I/catalog.xml" then ["m1", "m2"]
  else if u = "R/I/m1/catalog.xml" then ["e"]
  else if u = "R/I/m2/catalog.xml" then ["e"]
  else []

/-! ## The CCMI-1 searcher (`search_inventory_ccmi1`)

The searcher constructs candidate paths from the target experiment list and
queries the live catalog; each `get_elements` call is recorded in a trace of
structured `Call` values whose `url` is built exactly as the source builds
its URL strings. -/

/-- A listing call of the CCMI-1 searcher, by level, carrying the path
components the source interpolates into the URL. -/
inductive Call where
  | root (ru : String)
  | inst (ru i : String)
  | freq (ru i m e fq : String)
  | freqname (ru i m e fq rl : String)
  | ensemble (ru i m e fq rl fn : String)
  | version (ru i m e fq rl fn ens : String)
  | variables (ru i m e fq rl fn ens ver : String)
  | files (ru i m e fq rl fn ens ver v : String)
deriving DecidableEq

/-- The URL of a listing call, concatenated as in the source. -/
def Call.url : Call → String
  | .root ru => ru ++ "catalog.xml"
  | .inst ru i => ru ++ i ++ "/catalog.xml"
  | .freq ru i m e fq =>
      ru ++ (i ++ "/" ++ m ++ "/" ++ e) ++ "/" ++ fq ++ "/catalog.xml"
  | .freqname ru i m e fq rl =>
      ru ++ (i ++ "/" ++ m ++ "/" ++ e ++ "/" ++ fq ++ "/" ++ rl) ++ "/catalog.xml"
  | .ensemble ru i m e fq rl fn =>
      ru ++ (i ++ "/" ++ m ++ "/" ++ e ++ "/" ++ fq ++ "/" ++ rl ++ "/" ++ fn) ++
        "/catalog.xml"
  | .version ru i m e fq rl fn ens =>
      ru ++ (i ++ "/" ++ m ++ "/" ++ e ++ "/" ++ fq ++ "/" ++ rl ++ "/" ++ fn ++ "/" ++ ens) ++
        "/catalog.xml"
  | .variables ru i m e fq rl fn ens ver =>
      ru ++ (i ++ "/" ++ m ++ "/" ++ e ++ "/" ++ fq ++ "/" ++ rl ++ "/" ++ fn ++ "/" ++ ens ++
        "/" ++ ver) ++ "/catalog.xml"
  | .files ru i m e fq rl fn ens ver v =>
      ru ++ (i ++ "/" ++ m ++ "/" ++ e ++ "/" ++ fq ++ "/" ++ rl ++ "/" ++ fn ++ "/" ++ ens ++
        "/" ++ ver ++ "/" ++ v) ++ "/catalog.xml"

/-- The Experiment-level path component of a call, when it has one. -/
def Call.exptOf : Call → Option String
  | .root _ => none
  | .inst _ _ => none
  | .freq _ _ _ e _ => some e
  | .freqname _ _ _ e _ _ => some e
  | .ensemble _ _ _ e _ _ _ => some e
  | .version _ _ _ e _ _ _ _ => some e
  | .variables _ _ _ e _ _ _ _ _ => some e
  | .files _ _ _ e _ _ _ _ _ _ => some e

/-- `for var in trgvar: if var in variables:` fetch and append the files of
that variable directory (the innermost loop; its try/except passes on
failure but continues). -/
def ccmi1SearchVars (env : Env) (ru i m e fq rl fn ens ver : String)
    (vlist : List String) : List String → List String × List Call
  | [] => ([], [])
  | v :: vs =>
    let rest := ccmi1SearchVars env ru i m e fq rl fn ens ver vlist vs
    if v ∈ vlist then
      let c := Call.files ru i m e fq rl fn ens ver v
      match ccmi1GetElementsE env c.url dirTag1 fileTag2 urlPathAttr with
      | .ok fs => (fs ++ rest.1, c :: rest.2)
      | .error _ => (rest.1, c :: rest.2)
    else rest

/-- `for version in sorted(versions):` list the variables of every version
directory in turn (the searcher iterates all versions, not just one). -/
def ccmi1SearchVersions (env : Env) (ru i m e fq rl fn ens : String) (trgvar : List String) :
    List String → List String × List Call
  | [] => ([], [])
  | ver :: vers =>
    let c := Call.variables ru i m e fq rl fn ens ver
    let tail := ccmi1SearchVersions env ru i m e fq rl fn ens trgvar vers
    match ccmi1GetElementsE env c.url dirTag1 dirTag2 xlinkTitle with
    | .error _ => tail
    | .ok vars2 =>
      let w := ccmi1SearchVars env ru i m e fq rl fn ens ver vars2 trgvar
      (w.1 ++ tail.1, c :: (w.2 ++ tail.2))

/-- `for ensemble in ensembles:` list the version directories. -/
def ccmi1SearchEnsembles (env : Env) (ru i m e fq rl fn : String) (trgvar : List String) :
    List String → List String × List Call
  | [] => ([], [])
  | ens :: es =>
    let c := Call.version ru i m e fq rl fn ens
    let tail := ccmi1SearchEnsembles env ru i m e fq rl fn trgvar es
    match ccmi1GetElementsE env c.url dirTag1 dirTag2 xlinkTitle with
    | .error _ => tail
    | .ok versions =>
      let w := ccmi1SearchVersions env ru i m e fq rl fn ens trgvar (pySorted versions)
      (w.1 ++ tail.1, c :: (w.2 ++ tail.2))

/-- The body examined for one target experiment under one model: frequency,
realm and frequency-name checks, then the ensemble descent.  Each
try/except `continue` is the error arm of the corresponding match. -/
def ccmi1SearchExpt (env : Env) (ru i m fq rl fn : String) (trgvar : List String)
    (e : String) : List String × List Call :=
  let cF := Call.freq ru i m e fq
  match ccmi1GetElementsE env cF.url dirTag1 dirTag2 xlinkTitle with
  | .error _ => ([], [cF])
  | .ok realms =>
    if rl ∈ realms then
      let cN := Call.freqname ru i m e fq rl
      match ccmi1GetElementsE env cN.url dirTag1 dirTag2 xlinkTitle with
      | .error _ => ([], [cF, cN])
      | .ok freqnames =>
        if fn ∈ freqnames then
          let cE := Call.ensemble ru i m e fq rl fn
          match ccmi1GetElementsE env cE.url dirTag1 dirTag2 xlinkTitle with
          | .error _ => ([], [cF, cN, cE])
          | .ok ensembles =>
            let w := ccmi1SearchEnsembles env ru i m e fq rl fn trgvar ensembles
            (w.1, cF :: cN :: cE :: w.2)
        else ([], [cF, cN])
    else ([], [cF])

/-- `for expt in trgexpt:` — the searcher only ever descends into target
experiments; no experiment listing call exists at all. -/
def ccmi1SearchExpts (env : Env) (ru i m fq rl fn : String) (trgvar : List String) :
    List String → List String × List Call
  | [] => ([], [])
  | e :: es =>
    let w := ccmi1SearchExpt env ru i m fq rl fn trgvar e
    let tail := ccmi1SearchExpts env ru i m fq rl fn trgvar es
    (w.1 ++ tail.1, w.2 ++ tail.2)

/-- `for model in models:`. -/
def ccmi1SearchModels (env : Env) (ru i fq rl fn : String)
    (trgexpt trgvar : List String) : List String → List String × List Call
  | [] => ([], [])
  | m :: ms =>
    let w := ccmi1SearchExpts env ru i m fq rl fn trgvar trgexpt
    let tail := ccmi1SearchModels env ru i fq rl fn trgexpt trgvar ms
    (w.1 ++ tail.1, w.2 ++ tail.2)

/-- `for inst in instts:` with the (never-firing) try/except around the
model listing. -/
def ccmi1SearchInsts (env : Env) (ru fq rl fn : String)
    (trgexpt trgvar : List String) : List String → List String × List Call
  | [] => ([], [])
  | i :: is =>
    let c := Call.inst ru i
    let tail := ccmi1SearchInsts env ru fq rl fn trgexpt trgvar is
    match ccmi1GetElementsE env c.url dirTag1 dirTag2 xlinkTitle with
    | .error _ => tail
    | .ok models =>
      let w := ccmi1SearchModels env ru i fq rl fn trgexpt trgvar models
      (w.1 ++ tail.1, c :: (w.2 ++ tail.2))

/-- `search_inventory_ccmi1`: returns the matched file paths (in append
order) and the trace of listing calls made.  The root listing call has no
try/except in the source, so a raise there would propagate — hence the
`Except` result type. -/
def searchInventoryCcmi1 (env : Env) (ru : String) (trgexpt trgvar : List String)
    (trgfreq trgrealm trgfreqname : String) : Except PyExc (List String × List Call) := do
  let c := Call.root ru
  let instts ← ccmi1GetElementsE env c.url dirTag1 dirTag2 xlinkTitle
  let w := ccmi1SearchInsts env ru trgfreq trgrealm trgfreqname trgexpt trgvar instts
  return (w.1, c :: w.2)

theorem ccmi1SearchVars_expt (env : Env) (ru i m e fq rl fn ens ver : String)
    (vlist : List String) :
    ∀ tv c, c ∈ (ccmi1SearchVars env ru i m e fq rl fn ens ver vlist tv).2 →
      c.exptOf = some e := by
  intro tv
  induction tv with
  | nil => intro c hc; simp [ccmi1SearchVars] at hc
  | cons v vs ih =>
    intro c hc
    simp only [ccmi1SearchVars] at hc
    by_cases hv : v ∈ vlist
    · rw [if_pos hv] at hc
      cases hg : ccmi1GetElementsE env (Call.files ru i m e fq rl fn ens ver v).url
          dirTag1 fileTag2 urlPathAttr with
      | ok fs =>
        rw [hg] at hc
        simp only [List.mem_cons] at hc
        rcases hc with hc | hc
        · subst hc; rfl
        · exact ih c hc
      | error ex =>
        rw [hg] at hc
        simp only [List.mem_cons] at hc
        rcases hc with hc | hc
        · subst hc; rfl
        · exact ih c hc
    · rw [if_neg hv] at hc
      exact ih c hc

theorem ccmi1SearchVersions_expt (env : Env) (ru i m e fq rl fn ens : String)
    (trgvar : List String) :
    ∀ vers c, c ∈ (ccmi1SearchVersions env ru i m e fq rl fn ens trgvar vers).2 →
      c.exptOf = some e := by
  intro vers
  induction vers with
  | nil => intro c hc; simp [ccmi1SearchVersions] at hc
  | cons ver vs ih =>
    intro c hc
    simp only [ccmi1SearchVersions] at hc
    cases hg : ccmi1GetElementsE env (Call.variables ru i m e fq rl fn ens ver).url
        dirTag1 dirTag2 xlinkTitle with
    | ok vars2 =>
      rw [hg] at hc
      simp only [List.mem_cons, List.mem_append] at hc
      rcases hc with hc | hc | hc
      · subst hc; rfl
      · exact ccmi1SearchVars_expt env ru i m e fq rl fn ens ver vars2 trgvar c hc
      · exact ih c hc
    | error ex =>
      rw [hg] at hc
      exact ih c hc

theorem ccmi1SearchEnsembles_expt (env : Env) (ru i m e fq rl fn : String)
    (trgvar : List String) :
    ∀ es c, c ∈ (ccmi1SearchEnsembles env ru i m e fq rl fn trgvar es).2 →
      c.exptOf = some e := by
  intro es
  induction es with
  | nil => intro c hc; simp [ccmi1SearchEnsembles] at hc
  | cons ens es2 ih =>
    intro c hc
    simp only [ccmi1SearchEnsembles] at hc
    cases hg : ccmi1GetElementsE env (Call.version ru i m e fq rl fn ens).url
        dirTag1 dirTag2 xlinkTitle with
    | ok versions =>
      rw [hg] at hc
      simp only [List.mem_cons, List.mem_append] at hc
      rcases hc with hc | hc | hc
      · subst hc; rfl
      · exact ccmi1SearchVersions_expt env ru i m e fq rl fn ens trgvar
          (pySorted versions) c hc
      · exact ih c hc
    | error ex =>
      rw [hg] at hc
      exact ih c hc

theorem ccmi1SearchExpt_expt (env : Env) (ru i m fq rl fn : String)
    (trgvar : List String) (e : String) :
    ∀ c, c ∈ (ccmi1SearchExpt env ru i m fq rl fn trgvar e).2 → c.exptOf = some e := by
  intro c hc
  simp only [ccmi1SearchExpt] at hc
  split at hc
  · simp only [List.mem_singleton] at hc
    subst hc; rfl
  · split at hc
    · split at hc
      · simp only [List.mem_cons, List.not_mem_nil, or_false] at hc
        rcases hc with hc | hc <;> (subst hc; rfl)
      · split at hc
        · split at hc
          · simp only [List.mem_cons, List.not_mem_nil, or_false] at hc
            rcases hc with hc | hc | hc <;> (subst hc; rfl)
          · simp only [List.mem_cons] at hc
            rcases hc with hc | hc | hc | hc
            · subst hc; rfl
            · subst hc; rfl
            · subst hc; rfl
            · exact ccmi1SearchEnsembles_expt env ru i m e fq rl fn trgvar _ c hc
        · simp only [List.mem_cons, List.not_mem_nil, or_false] at hc
          rcases hc with hc | hc <;> (subst hc; rfl)
    · simp only [List.mem_singleton] at hc
      subst hc; rfl

theorem ccmi1SearchExpts_expt (env : Env) (ru i m fq rl fn : String)
    (trgvar : List String) :
    ∀ texpts c, c ∈ (ccmi1SearchExpts env ru i m fq rl fn trgvar texpts).2 →
      ∃ e ∈ texpts, c.exptOf = some e := by
  intro texpts
  induction texpts with
  | nil => intro c hc; simp [ccmi1SearchExpts] at hc
  | cons e es ih =>
    intro c hc
    simp only [ccmi1SearchExpts, List.mem_append] at hc
    rcases hc with hc | hc
    · exact ⟨e, List.mem_cons_self e es, ccmi1SearchExpt_expt env ru i m fq rl fn trgvar e c hc⟩
    · obtain ⟨e2, he2, hx⟩ := ih c hc
      exact ⟨e2, List.mem_cons_of_mem e he2, hx⟩

theorem ccmi1SearchModels_expt (env : Env) (ru i fq rl fn : String)
    (trgexpt trgvar : List String) :
    ∀ ms c, c ∈ (ccmi1SearchModels env ru i fq rl fn trgexpt trgvar ms).2 →
      ∃ e ∈ trgexpt, c.exptOf = some e := by
  intro ms
  induction ms with
  | nil => intro c hc; simp [ccmi1SearchModels] at hc
  | cons m ms2 ih =>
    intro c hc
    simp only [ccmi1SearchModels, List.mem_append] at hc
    rcases hc with hc | hc
    · exact ccmi1SearchExpts_expt env ru i m fq rl fn trgvar trgexpt c hc
    · exact ih c hc

theorem ccmi1SearchInsts_expt (env : Env) (ru fq rl fn : String)
    (trgexpt trgvar : List String) :
    ∀ il c, c ∈ (ccmi1SearchInsts env ru fq rl fn trgexpt trgvar il).2 →
      c.exptOf = none ∨ ∃ e ∈ trgexpt, c.exptOf = some e := by
  intro il
  induction il with
  | nil => intro c hc; simp [ccmi1SearchInsts] at hc
  | cons i is2 ih =>
    intro c hc
    simp only [ccmi1SearchInsts] at hc
    cases hg : ccmi1GetElementsE env (Call.inst ru i).url dirTag1 dirTag2 xlinkTitle with
    | error ex =>
      rw [hg] at hc
      exact ih c hc
    | ok ms =>
      rw [hg] at hc
      simp only [List.mem_cons, List.mem_append] at hc
      rcases hc with hc | hc | hc
      · subst hc; exact Or.inl rfl
      · exact Or.inr (ccmi1SearchModels_expt env ru i fq rl fn trgexpt trgvar ms c hc)
      · exact ih c hc

/-! ## The CCMI-2022 searcher (`search_inventory`) -/

/-- `search_inventory` of the CCMI-2022 script.  The result `flist` is a
local assigned only inside the `if trgexpt:` branch (modelled as an
`Option Py` starting unbound); the log write at the end reads it
unconditionally, so an empty `trgexpt` reaches it unbound (`NameError`).
`trgdata` is accepted and unused, as in the source. -/
def ccmi2022SearchInventory (env : Env) (ru : String) (fullinvntry : Py)
    (trgexpt trgdata trgxvar trgtble : List String) : Except PyExc Py := do
  let invntry ← pyIndex fullinvntry 0
  let ninst ← pyIntOf (← pyIndex (← pyIndex fullinvntry 1) 0)
  let nmdls ← pyIntListOf (← pyIndex fullinvntry 2)
  let nxpts ← pyIntListOf (← pyIndex fullinvntry 3)
  let nsims ← pyIntListOf (← pyIndex fullinvntry 4)
  let ntabs ← pyIntListOf (← pyIndex fullinvntry 5)
  let nvars ← pyIntListOf (← pyIndex fullinvntry 6)
  let _ := trgdata
  let mut flist : Option Py := none
  if ¬trgexpt.isEmpty then
    let mut fl : Py := .list []
    for ii in List.range ninst.toNat do
      let name ← pyStrOf (← pyGetPath invntry [ii, 0])
      fl ← pyAppend fl (.list [.str name, .list []])
    let mut icnt1 := 0
    let mut icnt2 := 0
    let mut icnt3 := 0
    let mut icnt4 := 0
    for ii in List.range ninst.toNat do
      for ij in List.range' 1 (nmdls.getD ii 0).toNat do
        let _mdl ← pyStrOf (← pyGetPath invntry [ii, ij, 0])
        for ik in List.range' 1 (nxpts.getD icnt1 0).toNat do
          let expt ← pyStrOf (← pyGetPath invntry [ii, ij, ik, 0])
          for il in List.range' 1 (nsims.getD icnt2 0).toNat do
            let _rsim ← pyStrOf (← pyGetPath invntry [ii, ij, ik, il, 0])
            for im in List.range' 1 (ntabs.getD icnt3 0).toNat do
              let mtab ← pyStrOf (← pyGetPath invntry [ii, ij, ik, il, im, 0])
              for ip in List.range (nvars.getD icnt4 0).toNat do
                let xvar ← pyStrOf (← pyGetPath invntry [ii, ij, ik, il, im, 1, ip])
                let mut ifound := 1
                if expt ∈ trgexpt ∧ mtab ∈ trgtble ∧ xvar ∈ trgxvar then
                  let b0 ← pyStrOf (← pyGetPath invntry [ii, 0])
                  let b1 ← pyStrOf (← pyGetPath invntry [ii, ij, 0])
                  let b2 ← pyStrOf (← pyGetPath invntry [ii, ij, ik, 0])
                  let b3 ← pyStrOf (← pyGetPath invntry [ii, ij, ik, il, 0])
                  let b4 ← pyStrOf (← pyGetPath invntry [ii, ij, ik, il, im, 0])
                  let b5 ← pyStrOf (← pyGetPath invntry [ii, ij, ik, il, im, 1, ip])
                  let base := ru ++ b0 ++ "/" ++ b1 ++ "/" ++ b2 ++ "/" ++ b3 ++ "/" ++ b4 ++
                    "/" ++ b5
                  let ldirs ← ccmi2022ListDirs env (base ++ "/catalog.xml")
                  -- "assuming there should only be one type of grid label": ldirs[0]
                  let l0 ← pyListGet ldirs 0
                  let vers ← ccmi2022ListDirs env (base ++ "/" ++ l0 ++ "/catalog.xml")
                  -- more than one version directory: numerically greatest suffix wins
                  let vertrg ←
                    if vers.length > 1 then do
                      let nwork ← exceptMap (fun v => pyStrToInt (v.drop 1)) vers
                      pure ("v" ++ toString (nwork.foldl max (nwork.headD 0)))
                    else pyListGet vers 0
                  let files ← ccmi2022GetElementsE env
                    (base ++ "/" ++ l0 ++ "/" ++ vertrg ++ "/catalog.xml")
                    dirTag1 fileTag2 urlPathAttr
                  for iq in List.range files.length do
                    fl ← pyModifyPath fl [ii]
                      (fun p => pyModifyPath p [1]
                        (fun q => pyInsertIdx q ifound (.str (files.getD iq ""))))
                    ifound := ifound + 1
              icnt4 := icnt4 + 1
            icnt3 := icnt3 + 1
          icnt2 := icnt2 + 1
        icnt1 := icnt1 + 1
    flist := some fl
  -- searchfile write: pp.pprint(flist) reads flist unconditionally
  match flist with
  | none => .error .nameError
  | some fl => return fl

/-! ## The download phase (module-level loops of both XML scripts) -/

/-- The module-level download settings. -/
structure DlConfig where
  downloaddir : String
  overwrite : Bool

/-- State threaded through the download loop: local file contents, the URLs
actually requested over the network, and the printed log. -/
structure DlState where
  fs : String → Option (List Nat)
  reqs : List String
  log : List String

/-- The data server URL prefix prepended to each archive path. -/
def dapRoot : String := "https://dap.ceda.ac.uk/"

/-- Destination derivation: `basename`, `split('_')[3]` (IndexError when
the name has fewer fields — this runs outside the try), then
`os.path.join(downloaddir, experiment, basename)`. -/
def destFileOf (dldir afile : String) : Except PyExc String := do
  let base := pyBasename afile
  let experiment ← pyListGet (pySplit base '_') 3
  return dldir ++ "/" ++ experiment ++ "/" ++ base

/-- Point update of the modelled filesystem. -/
def fsSet (fs : String → Option (List Nat)) (k : String) (v : List Nat) :
    String → Option (List Nat) :=
  fun x => if x = k then some v else fs x

/-- One iteration of the download loop: derive the destination, skip when
it exists and overwriting is off (no request), otherwise request the URL;
the body is written on success and any transfer exception is caught,
printed, and the loop continues (`os.makedirs` touches directories only,
never file bytes). -/
def downloadStep (cfg : DlConfig) (net : String → Except PyExc (List Nat))
    (s : DlState) (afile : String) : Except PyExc DlState := do
  let fileURL := dapRoot ++ afile
  let destfile ← destFileOf cfg.downloaddir afile
  if cfg.overwrite = false ∧ (s.fs destfile).isSome then
    return { s with log := s.log ++ [destfile ++ " already exists. Skipping!"] }
  else
    match net fileURL with
    | .ok body =>
        return { s with fs := fsSet s.fs destfile body,
                        reqs := s.reqs ++ [fileURL],
                        log := s.log ++ ["Downloaded " ++ destfile] }
    | .error _ =>
        return { s with reqs := s.reqs ++ [fileURL],
                        log := s.log ++ ["Download failed: " ++ fileURL] }

/-- The whole `for afile in filelist:` download loop. -/
def downloadBatch (cfg : DlConfig) (net : String → Except PyExc (List Nat))
    (s : DlState) : List String → Except PyExc DlState
  | [] => .ok s
  | afile :: rest => do
      let s2 ← downloadStep cfg net s afile
      downloadBatch cfg net s2 rest

/-- The FTP script's file-retrieval loop
(`for dfile in lfiles: ftpc.retrbinary('RETR %s' % dfile, open(dfile, "wb").write)`).
The script contains no try/except at all: `open(dfile, "wb")` first creates or
truncates the local file, then the retrieval runs, and any exception it
raises propagates out of every loop, aborting the batch with the remaining
files unattempted. -/
def ftpRetrLoop (retr : String → Except PyExc (List Nat))
    (fs : String → Option (List Nat)) : List String → Except PyExc (String → Option (List Nat))
  | [] => .ok fs
  | dfile :: rest => do
      let fs1 := fsSet fs dfile []
      let body ← retr dfile
      ftpRetrLoop retr (fsSet fs1 dfile body) rest

/-- A transfer function whose only failure is the file `"b"`. -/
def ftpFailNet : String → Except PyExc (List Nat) := fun d =>
  if d = "b" then .error .otherConnError else .ok [1]

theorem downloadBatch_append (cfg : DlConfig) (net : String → Except PyExc (List Nat)) :
    ∀ xs ys s, downloadBatch cfg net s (xs ++ ys) =
      (downloadBatch cfg net s xs >>= fun s2 => downloadBatch cfg net s2 ys) := by
  intro xs
  induction xs with
  | nil => intro ys s; rfl
  | cons x xs2 ih =>
    intro ys s
    simp only [List.cons_append, downloadBatch]
    cases h : downloadStep cfg net s x with
    | ok s2 => simp [h, ih, ok_bind]
    | error e => simp [h, error_bind]

/-! ## Remaining auxiliary definitions and lemmas for the claim theorems -/

/-- A Python `try: body except Exception: handler` around an expression. -/
def pyTry {α : Type} (body : Except PyExc α) (handler : PyExc → Except PyExc α) :
    Except PyExc α :=
  match body with
  | .ok a => .ok a
  | .error e => handler e

/-- Catalog documents for the version-selection scenario: one institution,
one model, one ensemble, whose version directory holds `v1, v2, v10`, each
with a matching `zmcly` variable directory holding one file. -/
def versionStubDocs (u : String) : XmlElem :=
  if u = "R/catalog.xml" then mkDirCatalog ["I"]
  else if u = "R/I/catalog.xml" then mkDirCatalog ["M"]
  else if u = "R/I/M/refC1/mon/catalog.xml" then mkDirCatalog ["atmos"]
  else if u = "R/I/M/refC1/mon/atmos/catalog.xml" then mkDirCatalog ["monthly"]
  else if u = "R/I/M/refC1/mon/atmos/monthly/catalog.xml" then mkDirCatalog ["r1"]
  else if u = "R/I/M/refC1/mon/atmos/monthly/r1/catalog.xml" then
    mkDirCatalog ["v1", "v2", "v10"]
  else if u = "R/I/M/refC1/mon/atmos/monthly/r1/v1/catalog.xml" then mkDirCatalog ["zmcly"]
  else if u = "R/I/M/refC1/mon/atmos/monthly/r1/v2/catalog.xml" then mkDirCatalog ["zmcly"]
  else if u = "R/I/M/refC1/mon/atmos/monthly/r1/v10/catalog.xml" then mkDirCatalog ["zmcly"]
  else if u = "R/I/M/refC1/mon/atmos/monthly/r1/v1/zmcly/catalog.xml" then mkFileCatalog ["f1"]
  else if u = "R/I/M/refC1/mon/atmos/monthly/r1/v2/zmcly/catalog.xml" then mkFileCatalog ["f2"]
  else if u = "R/I/M/refC1/mon/atmos/monthly/r1/v10/zmcly/catalog.xml" then
    mkFileCatalog ["f10"]
  else mkDirCatalog []

/-- Environment serving `versionStubDocs` on the first attempt, every time. -/
def versionEnv : Env := ⟨fun u _ => .ok (some (versionStubDocs u))⟩

/-- The one-name stub used to exercise the round-trip claim. -/
def oneStub : String → List String := fun _ => ["a"]

theorem exceptMap_pyIntOf (l : List Int) : exceptMap pyIntOf (l.map .int) = .ok l := by
  induction l with
  | nil => rfl
  | cons x xs ih => simp [exceptMap, pyIntOf, ih]; rfl

theorem pyInsert_mem {α : Type} : ∀ (l : List α) (n : Nat) (x y : α),
    y ∈ pyInsert l n x → y = x ∨ y ∈ l := by
  intro l
  induction l with
  | nil =>
    intro n x y hy
    cases n <;> simp [pyInsert] at hy <;> exact Or.inl hy
  | cons a as ih =>
    intro n x y hy
    cases n with
    | zero =>
      simp only [pyInsert, List.mem_cons] at hy
      rcases hy with hy | hy
      · exact Or.inl hy
      · exact Or.inr (by simpa using hy)
    | succ n2 =>
      simp only [pyInsert, List.mem_cons] at hy
      rcases hy with hy | hy
      · exact Or.inr (by simp [hy])
      · rcases ih n2 x y hy with h | h
        · exact Or.inl h
        · exact Or.inr (List.mem_cons_of_mem a h)

theorem pyInsert_length {α : Type} : ∀ (l : List α) (n : Nat) (x : α),
    (pyInsert l n x).length = l.length + 1 := by
  intro l
  induction l with
  | nil => intro n x; cases n <;> rfl
  | cons a as ih =>
    intro n x
    cases n with
    | zero => rfl
    | succ n2 => simp [pyInsert, ih n2 x]

theorem insertExptRun_mem :
    ∀ (names : List String) (mix : List Py) (ij ik : Nat) (y : Py),
      y ∈ insertExptRun mix ij ik names →
        y ∈ mix ∨ ∃ e ∈ names, y = .list [.str e] := by
  intro names
  induction names with
  | nil => intro mix ij ik y hy; exact Or.inl hy
  | cons e es ih =>
    intro mix ij ik y hy
    simp only [insertExptRun] at hy
    rcases ih _ (ij) (ik + 1) y hy with h | h
    · rcases pyInsert_mem mix (2 * ij + ik + 1) (.list [.str e]) y h with h2 | h2
      · exact Or.inr ⟨e, List.mem_cons_self e es, h2⟩
      · exact Or.inl h2
    · obtain ⟨e2, he2, hx⟩ := h
      exact Or.inr ⟨e2, List.mem_cons_of_mem e he2, hx⟩

theorem insertExptRun_length :
    ∀ (names : List String) (mix : List Py) (ij ik : Nat),
      (insertExptRun mix ij ik names).length = mix.length + names.length := by
  intro names
  induction names with
  | nil => intro mix ij ik; rfl
  | cons e es ih =>
    intro mix ij ik
    simp only [insertExptRun, ih, pyInsert_length, List.length_cons]
    omega

theorem ccmi1MixStub_mem (f : String → List String) (ru inst : String) :
    ∀ (ms : List String) (mix : List Py) (ij : Nat) (y : Py),
      y ∈ ccmi1MixStub f ru inst mix ij ms →
        y ∈ mix ∨ ∃ m ∈ ms, ∃ e ∈ stubExpts f ru inst m, y = .list [.str e] := by
  intro ms
  induction ms with
  | nil => intro mix ij y hy; exact Or.inl hy
  | cons m ms2 ih =>
    intro mix ij y hy
    simp only [ccmi1MixStub] at hy
    rcases ih _ (ij + 1) y hy with h | h
    · rcases insertExptRun_mem _ mix ij 0 y h with h2 | h2
      · exact Or.inl h2
      · obtain ⟨e, he, hx⟩ := h2
        exact Or.inr ⟨m, List.mem_cons_self m ms2, e, he, hx⟩
    · obtain ⟨m2, hm2, e, he, hx⟩ := h
      exact Or.inr ⟨m2, List.mem_cons_of_mem m hm2, e, he, hx⟩

theorem ccmi1MixStub_length (f : String → List String) (ru inst : String) :
    ∀ (ms : List String) (mix : List Py) (ij : Nat),
      (ccmi1MixStub f ru inst mix ij ms).length =
        mix.length + ((ms.map fun m => (stubExpts f ru inst m).length).sum) := by
  intro ms
  induction ms with
  | nil => intro mix ij; simp [ccmi1MixStub]
  | cons m ms2 ih =>
    intro mix ij
    simp only [ccmi1MixStub, ih, insertExptRun_length, List.map_cons, List.sum_cons]
    omega

/-- Strings safe for the repr/eval round trip. -/
def strQuoteFree (s : String) : Prop := ∀ c ∈ s.data, c ≠ quoteChar ∧ c ≠ '\\'

/-- A stub all of whose reported names are round-trip safe. -/
def stubQuoteFree (f : String → List String) : Prop :=
  ∀ url s, s ∈ f url → strQuoteFree s

theorem ccmi1FullStub_good (f : String → List String) (ru : String)
    (hf : stubQuoteFree f) : PyGood (ccmi1FullStub f ru) := by
  refine PyGood.list _ ?_
  intro p hp
  simp only [ccmi1FullStub, List.mem_cons, List.not_mem_nil, or_false] at hp
  rcases hp with hp | hp | hp | hp
  · subst hp
    refine PyGood.list _ ?_
    intro q hq
    simp only [ccmi1InvStub, List.mem_map] at hq
    obtain ⟨inst, hinst, hq2⟩ := hq
    subst hq2
    refine PyGood.list _ ?_
    intro r hr
    simp only [List.mem_cons, List.not_mem_nil, or_false] at hr
    rcases hr with hr | hr
    · subst hr
      exact PyGood.str inst (hf _ inst hinst)
    · subst hr
      refine PyGood.list _ ?_
      intro y hy
      rcases ccmi1MixStub_mem f ru inst _ _ _ y hy with h | h
      · simp only [List.mem_map] at h
        obtain ⟨m, hm, hy2⟩ := h
        subst hy2
        exact PyGood.str m (hf _ m hm)
      · obtain ⟨m, _, e, he, hy2⟩ := h
        subst hy2
        refine PyGood.list _ ?_
        intro z hz
        simp only [List.mem_singleton] at hz
        subst hz
        exact PyGood.str e (hf _ e he)
  · subst hp
    refine PyGood.list _ ?_
    intro q hq
    simp only [List.mem_singleton] at hq
    subst hq
    exact PyGood.int _
  · subst hp
    refine PyGood.list _ ?_
    intro q hq
    simp only [intsPy, List.mem_map] at hq
    obtain ⟨x, _, hq2⟩ := hq
    subst hq2
    exact PyGood.int _
  · subst hp
    refine PyGood.list _ ?_
    intro q hq
    simp only [intsPy, List.mem_map] at hq
    obtain ⟨x, _, hq2⟩ := hq
    subst hq2
    exact PyGood.int _

/-- The listing-call trace of the version-selection scenario. -/
def versionTrace : List Call :=
  [Call.root "R/",
   Call.inst "R/" "I",
   Call.freq "R/" "I" "M" "refC1" "mon",
   Call.freqname "R/" "I" "M" "refC1" "mon" "atmos",
   Call.ensemble "R/" "I" "M" "refC1" "mon" "atmos" "monthly",
   Call.version "R/" "I" "M" "refC1" "mon" "atmos" "monthly" "r1",
   Call.variables "R/" "I" "M" "refC1" "mon" "atmos" "monthly" "r1" "v1",
   Call.files "R/" "I" "M" "refC1" "mon" "atmos" "monthly" "r1" "v1" "zmcly",
   Call.variables "R/" "I" "M" "refC1" "mon" "atmos" "monthly" "r1" "v10",
   Call.files "R/" "I" "M" "refC1" "mon" "atmos" "monthly" "r1" "v10" "zmcly",
   Call.variables "R/" "I" "M" "refC1" "mon" "atmos" "monthly" "r1" "v2",
   Call.files "R/" "I" "M" "refC1" "mon" "atmos" "monthly" "r1" "v2" "zmcly"]

/-! # Claim theorems -/

/-- C1, counterexample: when all five attempts raise `HTTPError`, the
CCMI-2022 `get_elements` does not return an empty result — it raises the
unbound-local `NameError` at `ET.parse(usock)`, contradicting the claim
that an exhausted listing call returns an empty result rather than
raising. -/
theorem c1_ccmi2022_exhaustion_raises :
    ccmi2022GetElementsE failEnv "u" dirTag1 dirTag2 xlinkTitle = .error .nameError := rfl

/-- C1, amended: every listing call makes at most 5 `urlopen` attempts in
both scripts; on exhausting the attempts the CCMI-1 `get_elements` returns
the empty list (so traversal continues), while the CCMI-2022
`get_elements` raises `NameError` instead. -/
theorem c1_retry_cap_and_exhaustion (env : Env) (url t1 t2 a : String) :
    ccmi1OpenCount env url 0 5 ≤ 5 ∧ ccmi2022OpenCount env url 0 5 ≤ 5 ∧
    (allHttpFail env url →
      ccmi1GetElementsE env url t1 t2 a = .ok [] ∧
      ccmi2022GetElementsE env url t1 t2 a = .error .nameError) :=
  ⟨ccmi1OpenCount_le env url 5 0, ccmi2022OpenCount_le env url 5 0,
   fun h => ⟨ccmi1GetElementsE_allFail env url t1 t2 a h,
             ccmi2022GetElementsE_allFail env url t1 t2 a h⟩⟩

/-- C1, witness: the always-failing environment exhausts the retries; the
CCMI-1 call returns `[]` and the CCMI-2022 call raises. -/
theorem c1_retry_cap_and_exhaustion_witness :
    allHttpFail failEnv "u" ∧
    ccmi1GetElementsE failEnv "u" dirTag1 dirTag2 xlinkTitle = .ok [] ∧
    ccmi2022GetElementsE failEnv "u" dirTag1 dirTag2 xlinkTitle = .error .nameError := by
  have h : allHttpFail failEnv "u" := fun n _ => rfl
  exact ⟨h,
    ((c1_retry_cap_and_exhaustion failEnv "u" dirTag1 dirTag2 xlinkTitle).2.2 h).1,
    ((c1_retry_cap_and_exhaustion failEnv "u" dirTag1 dirTag2 xlinkTitle).2.2 h).2⟩

/-- C2, counterexample: when the root listing fails all five attempts, the
CCMI-1 inventory build does not abort with a fatal error — it returns
normally with the empty inventory and still writes the artifact text
`[[], [0], [], []]`. -/
theorem c2_ccmi1_root_failure_returns_empty :
    ccmi1CreateInventory failEnv "R/" =
      .ok (.list [.list [], .list [.int 0], .list [], .list []],
        renderPy (.list [.list [], .list [.int 0], .list [], .list []])) ∧
    renderPy (.list [.list [], .list [.int 0], .list [], .list []]) = "[[], [0], [], []]" := by
  constructor
  · rfl
  · simp [renderPy, renderPyChars, renderItems, intChars, natDigits, natDigitsAux,
      digitCharOf, quoteChar]

/-- C2, amended: when the root listing fails all five attempts, the CCMI-1
builder returns (and persists) the empty inventory instead of raising; the
CCMI-2022 builder does abort before writing any artifact, but via the
unbound-local `NameError` escaping `get_elements`, not a dedicated
root-listing error. -/
theorem c2_root_failure_behavior (env : Env) (ru : String)
    (h : allHttpFail env (ru ++ "catalog.xml")) :
    ccmi1CreateInventory env ru =
      .ok (.list [.list [], .list [.int 0], .list [], .list []],
        renderPy (.list [.list [], .list [.int 0], .list [], .list []])) ∧
    ccmi2022CreateInventory env ru = .error .nameError := by
  constructor
  · have h1 : ccmi1ListDirs env (ru ++ "catalog.xml") = .ok [] :=
      ccmi1GetElementsE_allFail env _ _ _ _ h
    simp only [ccmi1CreateInventory, h1, ok_bind, exceptMap, intsPy, List.map_nil,
      List.flatten_nil, List.length_nil]
    rfl
  · have h2 : ccmi2022ListDirs env (ru ++ "catalog.xml") = .error .nameError := by
      simpa [ccmi2022ListDirs] using
        ccmi2022GetElementsE_allFail env (ru ++ "catalog.xml") dirTag1 dirTag2 xlinkTitle h
    simp only [ccmi2022CreateInventory, h2, error_bind]

/-- C2, witness: the amended behaviour at the always-failing environment. -/
theorem c2_root_failure_behavior_witness :
    allHttpFail failEnv ("R/" ++ "catalog.xml") ∧
    ccmi1CreateInventory failEnv "R/" =
      .ok (.list [.list [], .list [.int 0], .list [], .list []],
        renderPy (.list [.list [], .list [.int 0], .list [], .list []])) ∧
    ccmi2022CreateInventory failEnv "R/" = .error .nameError := by
  have h : allHttpFail failEnv ("R/" ++ "catalog.xml") := fun n _ => rfl
  exact ⟨h, (c2_root_failure_behavior failEnv "R/" h).1,
    (c2_root_failure_behavior failEnv "R/" h).2⟩

/-- C3: at the failing input (a single ensemble whose version directory
holds `v1, v2, v10`, each version containing the matched variable), the
CCMI-1 searcher collects files from every version — in lexicographic order
`v1, v10, v2` — rather than selecting only the numerically greatest
version `v10`.  (The CCMI-2022 searcher implements the selection rule; the
CCMI-1 loop `for version in sorted(versions)` contradicts its own comment
"Take the latest version".) -/
theorem c3_ccmi1_search_collects_every_version :
    (searchInventoryCcmi1 versionEnv "R/" ["refC1"] ["zmcly"] "mon" "atmos" "monthly").map
      (fun r => r.1) = .ok ["f1", "f10", "f2"] := rfl

/-- C4: in live-search mode with the experiment filter `{"refC1"}`, every
listing call the CCMI-1 searcher makes that carries an Experiment-level
path component carries `"refC1"` — no listing call is ever issued on a
branch with a different experiment name. -/
theorem c4_experiment_pruning (env : Env) (ru : String) (tvars : List String)
    (fq rl fn : String) (r : List String × List Call) (c : Call) (x : String)
    (hr : searchInventoryCcmi1 env ru ["refC1"] tvars fq rl fn = .ok r)
    (hc : c ∈ r.2) (hx : c.exptOf = some x) : x = "refC1" := by
  simp only [searchInventoryCcmi1] at hr
  cases hg : ccmi1GetElementsE env (Call.root ru).url dirTag1 dirTag2 xlinkTitle with
  | error e =>
    rw [hg] at hr
    simp only [error_bind] at hr
    cases hr
  | ok instts =>
    rw [hg] at hr
    simp only [ok_bind] at hr
    have hr2 : Except.ok (ε := PyExc)
        ((ccmi1SearchInsts env ru fq rl fn ["refC1"] tvars instts).1,
         Call.root ru :: (ccmi1SearchInsts env ru fq rl fn ["refC1"] tvars instts).2) =
        .ok r := hr
    injection hr2 with hr3
    subst hr3
    simp only [List.mem_cons] at hc
    rcases hc with hc | hc
    · subst hc
      simp [Call.exptOf] at hx
    · rcases ccmi1SearchInsts_expt env ru fq rl fn ["refC1"] tvars instts c hc with h | h
      · rw [h] at hx
        cases hx
      · obtain ⟨e, he, hee⟩ := h
        simp only [List.mem_singleton] at he
        subst he
        rw [hee] at hx
        exact (Option.some.inj hx).symm

/-- C4, witness: in the concrete scenario the trace contains an
Experiment-level call, and it carries `"refC1"`. -/
theorem c4_experiment_pruning_witness :
    searchInventoryCcmi1 versionEnv "R/" ["refC1"] ["zmcly"] "mon" "atmos" "monthly" =
      .ok (["f1", "f10", "f2"], versionTrace) ∧
    Call.freq "R/" "I" "M" "refC1" "mon" ∈ versionTrace ∧
    (Call.freq "R/" "I" "M" "refC1" "mon").exptOf = some "refC1" ∧
    "refC1" = "refC1" := by
  refine ⟨rfl, by simp [versionTrace], rfl, ?_⟩
  exact c4_experiment_pruning versionEnv "R/" ["zmcly"] "mon" "atmos" "monthly"
    (["f1", "f10", "f2"], versionTrace) (Call.freq "R/" "I" "M" "refC1" "mon") "refC1"
    rfl (by simp [versionTrace]) rfl

/-- C5: reloading the persisted artifact of any inventory the CCMI-1
builder produced from a stub with round-trip-safe names reproduces exactly
the in-memory structure (names, level nesting, counts). -/
theorem c5_inventory_roundtrip (f : String → List String) (ru : String)
    (hf : stubQuoteFree f) (inv : Py) (art : String)
    (hc : ccmi1CreateInventory (stubEnv f) ru = .ok (inv, art)) :
    parsePy art = some inv := by
  have h := ccmi1CreateInventory_stub f ru
  rw [hc] at h
  injection h with h2
  have hinv : inv = ccmi1FullStub f ru := congrArg Prod.fst h2
  have hart : art = renderPy (ccmi1FullStub f ru) := congrArg Prod.snd h2
  rw [hart, hinv]
  exact parsePy_renderPy _ (ccmi1FullStub_good f ru hf)

/-- C5, witness: the round trip at a one-institution stub. -/
theorem c5_inventory_roundtrip_witness :
    stubQuoteFree oneStub ∧
    parsePy (renderPy (Py.list [.list [.list [.str "a", .list [.str "a", .list [.str "a"]]]],
        .list [.int 1], .list [.int 1], .list [.int 1]])) =
      some (Py.list [.list [.list [.str "a", .list [.str "a", .list [.str "a"]]]],
        .list [.int 1], .list [.int 1], .list [.int 1]]) := by
  have hf : stubQuoteFree oneStub := by
    intro url s hs
    simp only [oneStub, List.mem_singleton] at hs
    subst hs
    show ∀ c ∈ ("a" : String).data, c ≠ quoteChar ∧ c ≠ '\\'
    decide
  refine ⟨hf, ?_⟩
  exact c5_inventory_roundtrip oneStub "R/" hf
    (Py.list [.list [.list [.str "a", .list [.str "a", .list [.str "a"]]]],
      .list [.int 1], .list [.int 1], .list [.int 1]])
    (renderPy (Py.list [.list [.list [.str "a", .list [.str "a", .list [.str "a"]]]],
      .list [.int 1], .list [.int 1], .list [.int 1]])) rfl

/-- C6, counterexample: on a stub reporting two models for one institution
(one experiment each), the CCMI-2022 builder crashes with an `IndexError`
(its level-3 loop subscripts `invntry[ii][ij]` for `ij` up to the model
count, but `invntry[ii]` is the pair `[name, modellist]`), so no inventory
with the claimed counts is produced. -/
theorem c6_ccmi2022_two_models_crash :
    ccmi2022CreateInventory (stubEnv twoModelStub) "R/" = .error .indexError := rfl

/-- C6, amended (restricted to the CCMI-1 builder, which the counterexample
does not touch): for every stub, the build succeeds and records exactly the
stub-derived structure — the institution count, the per-institution model
counts (summing to the total model count), the per-model experiment counts
(summing, model by model, to the total experiment count), and, despite the
positional-offset insertion scheme, each institution's entry holds one node
per model plus one per discovered experiment. -/
theorem c6_ccmi1_count_law (f : String → List String) (ru : String) :
    ccmi1CreateInventory (stubEnv f) ru =
      .ok (ccmi1FullStub f ru, renderPy (ccmi1FullStub f ru)) ∧
    (ccmi1NmdlsStub f ru).sum =
      ((f (ru ++ "catalog.xml")).map fun i => ((stubModels f ru i).length : Int)).sum ∧
    (ccmi1NxptsStub f ru).sum =
      ((f (ru ++ "catalog.xml")).map fun i =>
        ((stubModels f ru i).map fun m => ((stubExpts f ru i m).length : Int)).sum).sum ∧
    ∀ i ∈ f (ru ++ "catalog.xml"),
      (ccmi1MixStub f ru i ((stubModels f ru i).map Py.str) 0 (stubModels f ru i)).length =
        (stubModels f ru i).length +
          ((stubModels f ru i).map fun m => (stubExpts f ru i m).length).sum := by
  refine ⟨ccmi1CreateInventory_stub f ru, rfl, ?_, ?_⟩
  · simp only [ccmi1NxptsStub, List.sum_flatten, List.map_map]
    rfl
  · intro i _
    rw [ccmi1MixStub_length]
    simp

/-- C7: when the derived destination file already exists and overwriting is
disabled, the download step issues no network request and leaves the
filesystem (hence the existing file's bytes) untouched. -/
theorem c7_download_skip_idempotent (cfg : DlConfig)
    (net : String → Except PyExc (List Nat)) (s : DlState) (afile d : String)
    (hov : cfg.overwrite = false) (hd : destFileOf cfg.downloaddir afile = .ok d)
    (hex : (s.fs d).isSome = true) :
    ∃ s2, downloadStep cfg net s afile = .ok s2 ∧ s2.fs = s.fs ∧ s2.reqs = s.reqs := by
  refine ⟨{ s with log := s.log ++ [d ++ " already exists. Skipping!"] }, ?_, rfl, rfl⟩
  simp [downloadStep, hd, ok_bind, hov, hex]
  rfl

/-- C7, witness: a concrete skip at an existing destination. -/
theorem c7_download_skip_idempotent_witness :
    (⟨"d", false⟩ : DlConfig).overwrite = false ∧
    destFileOf "d" "p/x_a_M_refC1_r.nc" = .ok "d/refC1/x_a_M_refC1_r.nc" ∧
    ((fun p => if p = "d/refC1/x_a_M_refC1_r.nc" then some [1] else none :
        String → Option (List Nat)) "d/refC1/x_a_M_refC1_r.nc").isSome = true ∧
    ∃ s2, downloadStep ⟨"d", false⟩ (fun _ => .error .httpError)
        ⟨fun p => if p = "d/refC1/x_a_M_refC1_r.nc" then some [1] else none, [], []⟩
        "p/x_a_M_refC1_r.nc" = .ok s2 ∧
      s2.fs = (fun p => if p = "d/refC1/x_a_M_refC1_r.nc" then some [1] else none) ∧
      s2.reqs = [] := by
  refine ⟨rfl, rfl, rfl, ?_⟩
  exact c7_download_skip_idempotent ⟨"d", false⟩ (fun _ => .error .httpError)
    ⟨fun p => if p = "d/refC1/x_a_M_refC1_r.nc" then some [1] else none, [], []⟩
    "p/x_a_M_refC1_r.nc" "d/refC1/x_a_M_refC1_r.nc" rfl rfl rfl

/-- C8, amended: in the two XML scripts' download loops one file's transfer
failure is logged and skipped, and the batch continues with the remaining
files from the same state — the failing file contributes only its request and
its failure log line, and the rest of the batch runs exactly as it would.
In the FTP script's retrieval loop, by contrast, nothing catches the
failure: the first failing retrieval aborts the whole loop with that error,
leaving the remaining files unattempted. -/
theorem c8_transfer_failure_skipped (cfg : DlConfig)
    (net : String → Except PyExc (List Nat)) (xs ys : List String) (f : String)
    (s0 s1 : DlState) (d : String) (e : PyExc)
    (hxs : downloadBatch cfg net s0 xs = .ok s1)
    (hd : destFileOf cfg.downloaddir f = .ok d)
    (hskip : cfg.overwrite = true ∨ s1.fs d = none)
    (hnet : net (dapRoot ++ f) = .error e) :
    (downloadBatch cfg net s0 (xs ++ f :: ys) =
      downloadBatch cfg net
        { s1 with reqs := s1.reqs ++ [dapRoot ++ f],
                  log := s1.log ++ ["Download failed: " ++ (dapRoot ++ f)] } ys) ∧
    ∀ (retr : String → Except PyExc (List Nat)) (fs : String → Option (List Nat))
        (dfile : String) (rest : List String) (e2 : PyExc),
      retr dfile = .error e2 →
        ftpRetrLoop retr fs (dfile :: rest) = .error e2 := by
  refine ⟨?_, fun retr fs dfile rest e2 h2 => by
    simp only [ftpRetrLoop, h2, error_bind]⟩
  rw [downloadBatch_append cfg net xs (f :: ys) s0, hxs, ok_bind]
  have hcond : ¬(cfg.overwrite = false ∧ (s1.fs d).isSome = true) := by
    rcases hskip with h | h
    · rintro ⟨h1, _⟩
      rw [h] at h1
      cases h1
    · rintro ⟨_, h2⟩
      rw [h] at h2
      cases h2
  have hstep : downloadStep cfg net s1 f =
      .ok { s1 with reqs := s1.reqs ++ [dapRoot ++ f],
                    log := s1.log ++ ["Download failed: " ++ (dapRoot ++ f)] } := by
    simp [downloadStep, hd, ok_bind, hcond, hnet]
    rfl
  simp only [downloadBatch, hstep, ok_bind]

/-- C8, witness: a concrete failing first file followed by a second file;
the batch proceeds to the second file. -/
theorem c8_transfer_failure_skipped_witness :
    downloadBatch ⟨"d", false⟩ (fun _ => .error .httpError)
      ⟨fun _ => none, [], []⟩ [] = .ok ⟨fun _ => none, [], []⟩ ∧
    destFileOf "d" "x_a_M_refC1_r.nc" = .ok "d/refC1/x_a_M_refC1_r.nc" ∧
    ((⟨"d", false⟩ : DlConfig).overwrite = true ∨
      (⟨fun _ => none, [], []⟩ : DlState).fs "d/refC1/x_a_M_refC1_r.nc" = none) ∧
    (fun _ => .error .httpError : String → Except PyExc (List Nat))
      (dapRoot ++ "x_a_M_refC1_r.nc") = .error .httpError ∧
    downloadBatch ⟨"d", false⟩ (fun _ => .error .httpError) ⟨fun _ => none, [], []⟩
        ([] ++ "x_a_M_refC1_r.nc" :: ["y_b_C_refC1_z.nc"]) =
      downloadBatch ⟨"d", false⟩ (fun _ => .error .httpError)
        ⟨fun _ => none, [] ++ [dapRoot ++ "x_a_M_refC1_r.nc"],
          [] ++ ["Download failed: " ++ (dapRoot ++ "x_a_M_refC1_r.nc")]⟩
        ["y_b_C_refC1_z.nc"] := by
  refine ⟨rfl, rfl, Or.inr rfl, rfl, ?_⟩
  exact (c8_transfer_failure_skipped ⟨"d", false⟩ (fun _ => .error .httpError)
    [] ["y_b_C_refC1_z.nc"] "x_a_M_refC1_r.nc" ⟨fun _ => none, [], []⟩
    ⟨fun _ => none, [], []⟩ "d/refC1/x_a_M_refC1_r.nc" .httpError
    rfl rfl (Or.inr rfl) rfl).1

/-- C8, counterexample to the unqualified claim: the FTP script's retrieval
loop (`for dfile in lfiles: ftpc.retrbinary(...)`) has no try/except, so a
single failing transfer propagates and aborts the whole batch — here the
failure on the second file `"b"` kills the loop with the error, and the
third file `"c"` is never attempted, let alone downloaded. -/
theorem c8_ftp_single_failure_aborts_batch :
    ftpRetrLoop ftpFailNet (fun _ => none) ["a", "b", "c"] =
      .error .otherConnError := rfl

/-- C9: calling the CCMI-2022 `search_inventory` with an empty `trgexpt`
always raises `NameError` at the log-writing step — `flist` is assigned
only inside the `if trgexpt:` branch, but `pprint(flist)` runs
unconditionally — for every environment and every structurally well-formed
inventory argument (seven components with the count lists as int lists). -/
theorem c9_empty_trgexpt_raises (env : Env) (ru : String) (p0 : Py) (n : Int)
    (t : List Py) (c2 c3 c4 c5 c6 : List Int) (extra : List Py)
    (trgdata trgxvar trgtble : List String) :
    ccmi2022SearchInventory env ru
      (.list ([p0, .list (.int n :: t), intsPy c2, intsPy c3, intsPy c4,
        intsPy c5, intsPy c6] ++ extra)) [] trgdata trgxvar trgtble =
      .error .nameError := by
  simp [ccmi2022SearchInventory, pyIndex, pyListGet, pyIntOf, pyIntListOf,
    exceptMap_pyIntOf, intsPy, ok_bind]

/-- C10: the CCMI-1 `get_elements` is total at its interface — it returns a
(possibly empty) list for every environment and never raises — so a
try/except wrapped around a call site can never reach its handler. -/
theorem c10_ccmi1_get_elements_total (env : Env) (url t1 t2 a : String) :
    (∃ l, ccmi1GetElementsE env url t1 t2 a = .ok l) ∧
    ∀ handler : PyExc → Except PyExc (List String),
      pyTry (ccmi1GetElementsE env url t1 t2 a) handler =
        ccmi1GetElementsE env url t1 t2 a := by
  have hex : ∃ l, ccmi1GetElementsE env url t1 t2 a = .ok l := by
    unfold ccmi1GetElementsE
    cases hcl : ccmi1OpenLoop env url 0 5 with
    | returnedEmpty => exact ⟨[], rfl⟩
    | broke usock =>
      cases usock with
      | none => exact ⟨[], rfl⟩
      | some root => exact ⟨extractAttrs root t1 t2 a, rfl⟩
  refine ⟨hex, ?_⟩
  intro handler
  obtain ⟨l, hl⟩ := hex
  rw [hl]
  rfl
